import Mathlib

/-!
# Testnet preparation and node start-up (simulators/eth2/testnet/prepared_testnet.go)

A shallow embedding of `prepareTestnet`, `createTestnet`, `startEth1Node`,
`startBeaconNode` and `startValidatorClient`, followed by the properties
established about them.

Conventions of the embedding.

* Go `int` values are `Int`; Go `uint64` values are `Nat`, reduced modulo `2^64`
  where the source converts or adds; `*big.Int` values are `Int`.
* The functions of the source mutate a `*Testnet` and may abort through
  `t.Fatalf`, `t.Fatal` or a run-time panic.  A start function therefore returns
  an `Outcome`: the `Testnet` as it stands when the function stops, the ordered
  list of external calls made up to that point, and the failure, if any.
* Everything the source only calls (the hive test API, the `setup` package,
  the node handles' accessors, the clock, the environment) is a field of the
  records `World` and `Setup`, so every statement holds for all behaviours of
  these collaborators.
-/

namespace Hive

/-! ## Data model -/

/-- Type `hivesim.Params` (a `map[string]string`), as the list of its entries in the
order of the source's literal. -/
abbrev Params := List (String × String)

/-- Interface `hivesim.StartOption`: a `Params` literal, an option produced by a
collaborator (identified by a label), or the result of `hivesim.Bundle`. -/
inductive StartOption where
  | params (kv : Params)
  | files (label : String)
  | bundle (parts : List StartOption)

/-- Type `net.IP`; only its rendering through `String()` is used by the source. -/
structure NetIP where
  text : String
deriving DecidableEq, Repr

/-- Method `net.IP.String`. -/
def NetIP.String (ip : NetIP) : String := ip.text

/-- Type `hivesim.Client`: the handle of a started container. -/
structure Client where
  Container : String
  IP : NetIP
deriving DecidableEq, Repr

/-- Type `hivesim.ClientDefinition`; the source reads `Name` and `Version`. -/
structure ClientDefinition where
  Name : String
  Version : String
deriving DecidableEq, Repr

/-- Modelled from the spec: the type `Eth1Node` is declared in another file of the
package; it is the handle of a started execution node.  The source builds it as
`&Eth1Node{client}`. -/
structure Eth1Node where
  client : Client
deriving DecidableEq, Repr

/-- Modelled from the spec: the type `BeaconNode` is declared in another file of the
package; it is the handle of a started beacon node.  The source builds it by
`NewBeaconNode(client)` and reads the client's `IP`. -/
structure BeaconNode where
  client : Client
deriving DecidableEq, Repr

/-- Type `setup.KeyDetails`: the credentials of one validator. -/
structure KeyDetails where
  pubkey : String
deriving DecidableEq, Repr

/-- Modelled from the spec: the type `ValidatorClient` is declared in another file of
the package; it is the pair of a validator-client handle and its key tranche.  The
source builds it as `&ValidatorClient{client, keys}`. -/
structure ValidatorClient where
  client : Client
  keys : List KeyDetails
deriving DecidableEq, Repr

/-- Modelled from the spec: `ConsensusType` and its constants `Ethash` and `Clique`
are declared in another file of the package.  The spec calls it the consensus
algorithm selector (proof-of-work or proof-of-authority).  The source compares it
with `==` against the two named constants, which Go allows only for a boolean,
numeric or string type, so it is a Go integer here; values other than the two
constants are representable. -/
abbrev ConsensusType := Int

/-- Constant `Ethash` (proof-of-work). -/
def Ethash : ConsensusType := 0

/-- Constant `Clique` (proof-of-authority). -/
def Clique : ConsensusType := 1

/-- The fields of `common.Spec.Config` that `prepareTestnet` writes. -/
structure SpecConfig where
  DEPOSIT_CONTRACT_ADDRESS : String
  DEPOSIT_CHAIN_ID : Nat
  DEPOSIT_NETWORK_ID : Nat
  ETH1_FOLLOW_DISTANCE : Nat
  ALTAIR_FORK_EPOCH : Nat
  BELLATRIX_FORK_EPOCH : Nat
  MIN_GENESIS_ACTIVE_VALIDATOR_COUNT : Nat
  SECONDS_PER_SLOT : Nat
  TERMINAL_TOTAL_DIFFICULTY : Nat
deriving DecidableEq, Repr

/-- Type `common.Spec`: the configuration written by `prepareTestnet` and the preset,
which it leaves as copied. -/
structure Spec where
  Config : SpecConfig
  preset : String
deriving DecidableEq, Repr

/-- The field of `params.ChainConfig` that the source reads. -/
structure ChainConfig where
  ChainID : Int
deriving DecidableEq, Repr

/-- The fields of `core.Genesis` that the source reads. -/
structure Genesis where
  Config : ChainConfig
  Timestamp : Nat
deriving DecidableEq, Repr

/-- Type `setup.Eth1Genesis`: the execution genesis and the network id. -/
structure Eth1Genesis where
  Genesis : Genesis
  NetworkID : Nat
deriving DecidableEq, Repr

/-- Type `common.BeaconState`, through the two accessors `createTestnet` calls. -/
structure BeaconState where
  GenesisTime : Nat
  GenesisValidatorsRoot : String
deriving DecidableEq, Repr

/-- Modelled from the spec: the type `config` is declared in another file of the
package; it holds the run parameters, of which these are the fields `prepareTestnet`
reads.  The numeric fields are `uint64`, the terminal total difficulty is a `*big.Int`;
`Nodes` is kept as the list of node names, of which only the length is used. -/
structure config where
  AltairForkEpoch : Nat
  MergeForkEpoch : Nat
  ValidatorCount : Nat
  SlotTime : Nat
  TerminalTotalDifficulty : Int
  Nodes : List String
  Eth1Consensus : ConsensusType
deriving DecidableEq, Repr

/-- Modelled from the spec: the type `testEnv` is declared in another file of the
package; it holds the validator credential pool and the secret keys. -/
structure testEnv where
  Keys : List KeyDetails
  Secrets : List String
deriving DecidableEq, Repr

/-- Type `PreparedTestnet`, field for field. -/
structure PreparedTestnet where
  spec : Spec
  eth1Genesis : Eth1Genesis
  eth2Genesis : BeaconState
  keys : List String
  executionOpts : StartOption
  validatorOpts : StartOption
  beaconOpts : StartOption
  keyTranches : List (List KeyDetails)

/-- Modelled from the spec: the type `Testnet` is declared in another file of the
package; it is the run state, with the fields the source sets in `createTestnet` and
the three ordered node lists it appends to.  The test handle `t` has no state of its
own here; its effects are the trace and the failure of an `Outcome`. -/
structure Testnet where
  genesisTime : Nat
  genesisValidatorsRoot : String
  spec : Spec
  eth1Genesis : Eth1Genesis
  eth1 : List Eth1Node
  beacons : List BeaconNode
  validators : List ValidatorClient
deriving DecidableEq, Repr

/-! ## Effects -/

/-- An argument of a format string. -/
inductive Arg where
  | int (i : Int)
  | str (s : String)
deriving DecidableEq, Repr

/-- Modelled from the spec: the methods `Fatalf`, `Fatal` and `StartClient` of
`hivesim.T` are declared outside this file; a fatal error aborts the run at once, and
a node that cannot be started is a fatal error.  These are the ways a call of the
source can stop without returning; the run-time panic is Go's own. -/
inductive Failure where
  /-- Call `t.Fatalf(format, args...)`. -/
  | fatalf (format : String) (args : List Arg)
  /-- Call `t.Fatal(err)`. -/
  | fatal (err : String)
  /-- Go run-time panic `index out of range [index] with length length`. -/
  | indexOutOfRange (index : Int) (length : Nat)
  /-- Call `t.StartClient` could not launch the node; hivesim fails the test. -/
  | startClient (err : String)
deriving DecidableEq, Repr

/-- The external calls a start function makes, in the order it makes them. -/
inductive Event where
  | logf (format : String) (args : List Arg)
  | enodeURL (node : Eth1Node)
  | userRPCAddress (node : Eth1Node)
  | engineRPCAddress (node : Eth1Node)
  | enr (node : BeaconNode)
  | startClient (name : String) (opts : List StartOption)

/-- What a start function leaves behind: the testnet, the calls made, the failure. -/
structure Outcome where
  testnet : Testnet
  trace : List Event
  err : Option Failure

/-- The collaborators of the start functions.  Each accessor returns the address or
an error; `StartClient` returns the client or the launch error; `KeysBundle` is
`setup.KeysBundle`. -/
structure World where
  EnodeURL : Eth1Node → Except String String
  UserRPCAddress : Eth1Node → Except String String
  EngineRPCAddress : Eth1Node → Except String String
  ENR : BeaconNode → Except String String
  StartClient : String → List StartOption → Except String Client
  KeysBundle : List KeyDetails → StartOption

/-- The collaborators of `prepareTestnet`: the clock (`time.Now().Unix()`, an
`int64`), the process environment, `configs.Mainnet`, the functions of the
`setup` package, the method `activeFork` of `config` and the port constants. -/
structure Setup where
  now : Int
  Getenv : String → String
  Mainnet : Spec
  BuildEth1Genesis : Int → Nat → Bool → Eth1Genesis
  ToParams : Eth1Genesis → String → Params
  Eth1Bundle : Genesis → Except String StartOption
  KeyTranches : List KeyDetails → Nat → List (List KeyDetails)
  ConsensusConfigsBundle : Spec → Genesis → Nat → Except String StartOption
  BuildBeaconState : Spec → Genesis → Nat → List KeyDetails → Except String BeaconState
  StateBundle : BeaconState → Except String StartOption
  activeFork : config → String
  PortBeaconAPI : Nat
  PortBeaconGRPC : Nat
  PortMetrics : Nat

/-! ## Go primitives -/

/-- Conversion of a Go integer to `uint64`. -/
def toUint64 (x : Int) : Nat := (x % 2 ^ 64).toNat

/-- Method `(*big.Int).Uint64`: the low 64 bits of the absolute value. -/
def bigUint64 (x : Int) : Nat := x.natAbs % 2 ^ 64

/-- Function `uint256.FromBig`: the value reduced to 256 bits (two's complement for a
negative argument) and the overflow flag. -/
def uint256FromBig (b : Int) : Nat × Bool :=
  ((b % 2 ^ 256).toNat, decide (2 ^ 256 ≤ b.natAbs))

/-- Go slice indexing `xs[i]` with an `int` index: the element, or the run-time
panic when the index is negative or not below the length. -/
def goIndex {α : Type} (xs : List α) (i : Int) : Except Failure α :=
  if 0 ≤ i then
    match xs[i.toNat]? with
    | some x => .ok x
    | none => .error (.indexOutOfRange i xs.length)
  else .error (.indexOutOfRange i xs.length)

/-- Function `hivesim.Bundle`: the composition of the given options, in order. -/
def Bundle (options : List StartOption) : StartOption := .bundle options

/-- Modelled from the spec: the function `NewBeaconNode` is declared in another file
of the package; it wraps the started client into a beacon-node handle. -/
def NewBeaconNode (cl : Client) : BeaconNode := ⟨cl⟩

/-- Package variable `depositAddress`, set by `init`, in the form `String()` gives. -/
def depositAddress : String := "0x4242424242424242424242424242424242424242"

/-! ## The source functions -/

/-- Function `prepareTestnet`. -/
def prepareTestnet (s : Setup) (env : testEnv) (config : config) :
    Except Failure PreparedTestnet :=
  let eth1GenesisTime := toUint64 s.now
  let eth2GenesisTime := (eth1GenesisTime + 30) % 2 ^ 64
  let eth1Genesis := s.BuildEth1Genesis config.TerminalTotalDifficulty eth1GenesisTime
    (decide (config.Eth1Consensus = Clique))
  let eth1ConfigOpt := s.ToParams eth1Genesis depositAddress
  match s.Eth1Bundle eth1Genesis.Genesis with
  | .error err => .error (.fatal err)
  | .ok eth1Bundle =>
  let execNodeOpts : Params := [("HIVE_LOGLEVEL", s.Getenv "HIVE_LOGLEVEL")]
  let executionOpts := Bundle [.params eth1ConfigOpt, eth1Bundle, .params execNodeOpts]
  let specCpy := s.Mainnet
  let tdd := (uint256FromBig config.TerminalTotalDifficulty).1
  let spec : Spec := { specCpy with
    Config := { specCpy.Config with
      DEPOSIT_CONTRACT_ADDRESS := depositAddress
      DEPOSIT_CHAIN_ID := bigUint64 eth1Genesis.Genesis.Config.ChainID
      DEPOSIT_NETWORK_ID := eth1Genesis.NetworkID
      ETH1_FOLLOW_DISTANCE := 1
      ALTAIR_FORK_EPOCH := config.AltairForkEpoch
      BELLATRIX_FORK_EPOCH := config.MergeForkEpoch
      MIN_GENESIS_ACTIVE_VALIDATOR_COUNT := config.ValidatorCount
      SECONDS_PER_SLOT := config.SlotTime
      TERMINAL_TOTAL_DIFFICULTY := tdd } }
  let keyTranches := s.KeyTranches env.Keys config.Nodes.length
  match s.ConsensusConfigsBundle spec eth1Genesis.Genesis config.ValidatorCount with
  | .error err => .error (.fatal err)
  | .ok consensusConfigOpts =>
  match s.BuildBeaconState spec eth1Genesis.Genesis eth2GenesisTime env.Keys with
  | .error err => .error (.fatal err)
  | .ok state =>
  match s.StateBundle state with
  | .error err => .error (.fatal err)
  | .ok stateOpt =>
  let commonOpts : Params := [
    ("HIVE_ETH2_BN_API_PORT", toString s.PortBeaconAPI),
    ("HIVE_ETH2_BN_GRPC_PORT", toString s.PortBeaconGRPC),
    ("HIVE_ETH2_METRICS_PORT", toString s.PortMetrics),
    ("HIVE_ETH2_CONFIG_DEPOSIT_CONTRACT_ADDRESS", depositAddress)]
  let beaconOpts := Bundle [
    .params commonOpts,
    .params [
      ("HIVE_CHECK_LIVE_PORT", toString s.PortBeaconAPI),
      ("HIVE_ETH2_MERGE_ENABLED", "1"),
      ("HIVE_ETH2_ETH1_GENESIS_TIME", toString eth1Genesis.Genesis.Timestamp),
      ("HIVE_ETH2_GENESIS_FORK", s.activeFork config)],
    stateOpt,
    consensusConfigOpts]
  let validatorOpts := Bundle [
    .params commonOpts,
    .params [("HIVE_CHECK_LIVE_PORT", "0")],
    consensusConfigOpts]
  .ok {
    spec := spec
    eth1Genesis := eth1Genesis
    eth2Genesis := state
    keys := env.Secrets
    executionOpts := executionOpts
    beaconOpts := beaconOpts
    validatorOpts := validatorOpts
    keyTranches := keyTranches }

/-- Method `createTestnet`. -/
def createTestnet (p : PreparedTestnet) : Testnet :=
  let genesisTime := p.eth2Genesis.GenesisTime
  let genesisValidatorsRoot := p.eth2Genesis.GenesisValidatorsRoot
  { genesisTime := genesisTime
    genesisValidatorsRoot := genesisValidatorsRoot
    spec := p.spec
    eth1Genesis := p.eth1Genesis
    eth1 := []
    beacons := []
    validators := [] }

/-- Method `startEth1Node`. -/
def startEth1Node (p : PreparedTestnet) (w : World) (testnet : Testnet)
    (eth1Def : ClientDefinition) (consensus : ConsensusType) : Outcome :=
  let tr := [Event.logf "Starting eth1 node: %s (%s)" [.str eth1Def.Name, .str eth1Def.Version]]
  let opts := [p.executionOpts]
  let start (tr : List Event) (opts : List StartOption) : Outcome :=
    match w.StartClient eth1Def.Name opts with
    | .error err =>
      ⟨testnet, tr ++ [.startClient eth1Def.Name opts], some (.startClient err)⟩
    | .ok client =>
      let en : Eth1Node := ⟨client⟩
      ⟨{ testnet with eth1 := testnet.eth1 ++ [en] },
        tr ++ [.startClient eth1Def.Name opts], none⟩
  if testnet.eth1.length = 0 then
    if consensus = Ethash then
      start tr (opts ++ [.params [("HIVE_MINER", "1212121212121212121212121212121212121212")]])
    else if consensus = Clique then
      start tr (opts ++ [.params [
        ("HIVE_CLIQUE_PRIVATEKEY",
          "9c647b8b7c4e7c3490668fb6c11473619db80c93704c70893d3813af4090c39c"),
        ("HIVE_MINER", "658bdf435d810c91414ec09147daa6db62406379")]])
    else
      start tr opts
  else
    match goIndex testnet.eth1 0 with
    | .error f => ⟨testnet, tr, some f⟩
    | .ok first =>
      match w.EnodeURL first with
      | .error err =>
        ⟨testnet, tr ++ [.enodeURL first],
          some (.fatalf "failed to get eth1 bootnode URL: %v" [.str err])⟩
      | .ok bootnode =>
        start (tr ++ [.enodeURL first]) (opts ++ [.params [("HIVE_BOOTNODE", bootnode)]])

/-- The first loop of `startBeaconNode`: the first index outside
`[0, len(testnet.eth1))` stops the call with the index failure. -/
def checkEndpoints (len : Nat) : List Int → Option Failure
  | [] => none
  | index :: rest =>
    if index < 0 ∨ index ≥ (len : Int) then
      some (.fatalf "only have %d eth1 nodes, cannot find index %d for BN"
        [.int len, .int index])
    else checkEndpoints len rest

/-- The second loop of `startBeaconNode`, with `addrs`, `engineAddrs` and the trace
as loop state. -/
def resolveEndpoints (w : World) (eth1 : List Eth1Node) :
    List Int → List String → List String → List Event →
      List Event × Except Failure (List String × List String)
  | [], addrs, engineAddrs, tr => (tr, .ok (addrs, engineAddrs))
  | index :: rest, addrs, engineAddrs, tr =>
    match goIndex eth1 index with
    | .error f => (tr, .error f)
    | .ok eth1Node =>
      match w.UserRPCAddress eth1Node with
      | .error err =>
        (tr ++ [.userRPCAddress eth1Node],
          .error (.fatalf "eth1 node used for beacon without available RPC: %v" [.str err]))
      | .ok userRPC =>
        match w.EngineRPCAddress eth1Node with
        | .error err =>
          (tr ++ [.userRPCAddress eth1Node, .engineRPCAddress eth1Node],
            .error (.fatalf "eth1 node used for beacon without available RPC: %v" [.str err]))
        | .ok engineRPC =>
          resolveEndpoints w eth1 rest (addrs ++ [userRPC]) (engineAddrs ++ [engineRPC])
            (tr ++ [.userRPCAddress eth1Node, .engineRPCAddress eth1Node])

/-- Method `startBeaconNode`. -/
def startBeaconNode (p : PreparedTestnet) (w : World) (testnet : Testnet)
    (beaconDef : ClientDefinition) (eth1Endpoints : List Int) : Outcome :=
  let tr := [Event.logf "Starting beacon node: %s (%s)"
    [.str beaconDef.Name, .str beaconDef.Version]]
  let opts := [p.beaconOpts]
  let start (tr : List Event) (opts : List StartOption) : Outcome :=
    match w.StartClient beaconDef.Name opts with
    | .error err =>
      ⟨testnet, tr ++ [.startClient beaconDef.Name opts], some (.startClient err)⟩
    | .ok client =>
      let bn := NewBeaconNode client
      ⟨{ testnet with beacons := testnet.beacons ++ [bn] },
        tr ++ [.startClient beaconDef.Name opts], none⟩
  match checkEndpoints testnet.eth1.length eth1Endpoints with
  | some f => ⟨testnet, tr, some f⟩
  | none =>
    match resolveEndpoints w testnet.eth1 eth1Endpoints [] [] tr with
    | (tr, .error f) => ⟨testnet, tr, some f⟩
    | (tr, .ok (addrs, engineAddrs)) =>
      let opts := opts ++ [.params [
        ("HIVE_ETH2_ETH1_RPC_ADDRS", ",".intercalate addrs),
        ("HIVE_ETH2_ETH1_ENGINE_RPC_ADDRS", ",".intercalate engineAddrs)]]
      if testnet.beacons.length > 0 then
        match goIndex testnet.beacons 0 with
        | .error f => ⟨testnet, tr, some f⟩
        | .ok first =>
          match w.ENR first with
          | .error err =>
            ⟨testnet, tr ++ [.enr first],
              some (.fatalf "failed to get ENR as bootnode for beacon node: %v" [.str err])⟩
          | .ok bootnodeENR =>
            start (tr ++ [.enr first])
              (opts ++ [.params [("HIVE_ETH2_BOOTNODE_ENRS", bootnodeENR)]])
      else
        start tr opts

/-- Method `startValidatorClient`. -/
def startValidatorClient (p : PreparedTestnet) (w : World) (testnet : Testnet)
    (validatorDef : ClientDefinition) (bnIndex : Int) (keyIndex : Int) : Outcome :=
  let tr := [Event.logf "Starting validator client: %s (%s)"
    [.str validatorDef.Name, .str validatorDef.Version]]
  if bnIndex ≥ (testnet.beacons.length : Int) then
    ⟨testnet, tr, some (.fatalf "only have %d beacon nodes, cannot find index %d for VC"
      [.int testnet.beacons.length, .int bnIndex])⟩
  else
    match goIndex testnet.beacons bnIndex with
    | .error f => ⟨testnet, tr, some f⟩
    | .ok bn =>
      let bnAPIOpt := StartOption.params [("HIVE_ETH2_BN_API_IP", bn.client.IP.String)]
      if keyIndex ≥ (p.keyTranches.length : Int) then
        ⟨testnet, tr, some (.fatalf "only have %d key tranches, cannot find index %d for VC"
          [.int p.keyTranches.length, .int keyIndex])⟩
      else
        match goIndex p.keyTranches keyIndex with
        | .error f => ⟨testnet, tr, some f⟩
        | .ok keys =>
          let keysOpt := w.KeysBundle keys
          let opts := [p.validatorOpts, keysOpt, bnAPIOpt]
          match w.StartClient validatorDef.Name opts with
          | .error err =>
            ⟨testnet, tr ++ [.startClient validatorDef.Name opts], some (.startClient err)⟩
          | .ok client =>
            let vc : ValidatorClient := ⟨client, keys⟩
            ⟨{ testnet with validators := testnet.validators ++ [vc] },
              tr ++ [.startClient validatorDef.Name opts], none⟩

/-! ## Observations on outcomes -/

/-- The `StartClient` calls recorded in a trace: client type and options. -/
def startCalls : List Event → List (String × List StartOption)
  | [] => []
  | .startClient name opts :: rest => (name, opts) :: startCalls rest
  | _ :: rest => startCalls rest

/-- The entries of the `Params` literals among a list of options. -/
def entriesOf : List StartOption → Params
  | [] => []
  | .params kv :: rest => kv ++ entriesOf rest
  | _ :: rest => entriesOf rest

/-- The entries a start function adds: those of the options that follow the prepared
bundle, which is always the first option. -/
def addedParams (opts : List StartOption) : Params := entriesOf (opts.drop 1)

/-- The keys a start function adds. -/
def addedKeys (opts : List StartOption) : List String := (addedParams opts).map Prod.fst

/-! ## The test driver -/

/-- One call of a start function by the test driver. -/
inductive Call where
  | eth1 (eth1Def : ClientDefinition) (consensus : ConsensusType)
  | beacon (beaconDef : ClientDefinition) (eth1Endpoints : List Int)
  | validator (validatorDef : ClientDefinition) (bnIndex : Int) (keyIndex : Int)

/-- The step of the testnet: the start function the call names. -/
def step (p : PreparedTestnet) (w : World) (testnet : Testnet) : Call → Outcome
  | .eth1 eth1Def consensus => startEth1Node p w testnet eth1Def consensus
  | .beacon beaconDef eth1Endpoints => startBeaconNode p w testnet beaconDef eth1Endpoints
  | .validator validatorDef bnIndex keyIndex =>
    startValidatorClient p w testnet validatorDef bnIndex keyIndex

/-- A sequence of calls against one testnet, each with the behaviour of the
collaborators at that time.  The run stops at the first failure.  The result
lists, per call made, the testnet before the call and the outcome. -/
def drive (p : PreparedTestnet) : Testnet → List (World × Call) → List (Testnet × Outcome)
  | _, [] => []
  | testnet, (w, c) :: rest =>
    (testnet, step p w testnet c) ::
      (match (step p w testnet c).err with
       | some _ => []
       | none => drive p (step p w testnet c).testnet rest)

/-- A call of `startEth1Node`, as the driver issues it. -/
def eth1Call (c : World × ClientDefinition × ConsensusType) : World × Call :=
  (c.1, .eth1 c.2.1 c.2.2)

/-! ## Sample inputs -/

/-- A prepared testnet with two key tranches. -/
def sampleP : PreparedTestnet :=
  { spec := ⟨⟨depositAddress, 1, 1, 1, 0, 0, 64, 12, 100⟩, "mainnet"⟩
    eth1Genesis := ⟨⟨⟨1⟩, 1000⟩, 1⟩
    eth2Genesis := ⟨1030, "root"⟩
    keys := []
    executionOpts := .files "execution"
    validatorOpts := .files "validator"
    beaconOpts := .files "beacon"
    keyTranches := [[⟨"k0"⟩, ⟨"k1"⟩], [⟨"k2"⟩, ⟨"k3"⟩]] }

/-- Collaborators under which every node exposes every address: the addresses are
derived from the node's IP, and a started client gets its type as container name. -/
def sampleW : World :=
  { EnodeURL := fun n => .ok ("enode://" ++ n.client.IP.String)
    UserRPCAddress := fun n => .ok ("http://" ++ n.client.IP.String ++ ":8545")
    EngineRPCAddress := fun n => .ok ("http://" ++ n.client.IP.String ++ ":8551")
    ENR := fun b => .ok ("enr:" ++ b.client.IP.String)
    StartClient := fun name opts => .ok ⟨name, ⟨"10.0.0." ++ toString opts.length⟩⟩
    KeysBundle := fun keys => .files (",".intercalate (keys.map KeyDetails.pubkey)) }

/-- An execution node. -/
def sampleEth1 (ip : String) : Eth1Node := ⟨⟨"geth", ⟨ip⟩⟩⟩

/-- A beacon node. -/
def sampleBeacon (ip : String) : BeaconNode := ⟨⟨"lighthouse-bn", ⟨ip⟩⟩⟩

/-- A testnet with two execution nodes and one beacon node. -/
def sampleT : Testnet :=
  { createTestnet sampleP with
    eth1 := [sampleEth1 "10.0.0.1", sampleEth1 "10.0.0.2"]
    beacons := [sampleBeacon "10.0.1.1"] }

/-- The three calls of the sample run: an Ethash producer, then two further nodes. -/
def sampleEth1Calls : List (World × ClientDefinition × ConsensusType) :=
  [(sampleW, ⟨"go-ethereum", "v1"⟩, Ethash), (sampleW, ⟨"nethermind", "v1"⟩, Ethash),
   (sampleW, ⟨"besu", "v1"⟩, Ethash)]

/-- A run on the sample testnet: an execution node, a beacon node on execution node 2,
a validator client on beacon node 1 with tranche 0. -/
def sampleCalls : List (World × Call) :=
  [(sampleW, .eth1 ⟨"go-ethereum", "v1"⟩ Ethash),
   (sampleW, .beacon ⟨"lighthouse-bn", "v1"⟩ [2, 0]),
   (sampleW, .validator ⟨"lighthouse-vc", "v1"⟩ 1 0)]

/-- The testnet of the sample run before its third call. -/
def sampleBefore : Testnet :=
  (step sampleP sampleW (step sampleP sampleW sampleT
    (.eth1 ⟨"go-ethereum", "v1"⟩ Ethash)).testnet
    (.beacon ⟨"lighthouse-bn", "v1"⟩ [2, 0])).testnet

/-- Collaborators of `prepareTestnet` for the sample runs: the execution genesis stores
the timestamp it is given, with chain id and network id 1; the beacon state stores the
genesis time it is given; every bundle is produced. -/
def sampleS : Setup :=
  { now := 1700000000
    Getenv := fun _ => "3"
    Mainnet := ⟨⟨"0x00000000219ab540356cBB839Cbe05303d7705Fa", 1, 1, 2048, 74240, 144896,
      16384, 12, 58750000000000000000000⟩, "mainnet"⟩
    BuildEth1Genesis := fun _ ts _ => ⟨⟨⟨1⟩, ts⟩, 1⟩
    ToParams := fun g addr =>
      [("HIVE_CHAIN_ID", toString g.Genesis.Config.ChainID),
       ("HIVE_NETWORK_ID", toString g.NetworkID), ("HIVE_DEPOSIT_CONTRACT", addr)]
    Eth1Bundle := fun _ => .ok (.files "genesis.json")
    KeyTranches := fun keys n => if n = 0 then [] else [keys]
    ConsensusConfigsBundle := fun _ _ _ => .ok (.files "config.yaml")
    BuildBeaconState := fun _ _ time _ => .ok ⟨time, "root"⟩
    StateBundle := fun _ => .ok (.files "genesis.ssz")
    activeFork := fun c =>
      if c.MergeForkEpoch = 0 then "merge" else if c.AltairForkEpoch = 0 then "altair"
      else "phase0"
    PortBeaconAPI := 4000
    PortBeaconGRPC := 4001
    PortMetrics := 8080 }

/-- A credential pool of two validators. -/
def sampleEnv : testEnv := ⟨[⟨"k0"⟩, ⟨"k1"⟩], ["s0", "s1"]⟩

/-- Run parameters with a terminal total difficulty of 150. -/
def sampleConfig : config :=
  { AltairForkEpoch := 0, MergeForkEpoch := 0, ValidatorCount := 64, SlotTime := 3,
    TerminalTotalDifficulty := 150, Nodes := ["n0"], Eth1Consensus := Clique }

/-- Run parameters with a terminal total difficulty of `2^256`. -/
def hugeConfig : config := { sampleConfig with TerminalTotalDifficulty := 2 ^ 256 }

/-- The prepared testnet of the sample parameters. -/
def samplePrepared : PreparedTestnet :=
  match prepareTestnet sampleS sampleEnv sampleConfig with
  | .ok p => p
  | .error _ => sampleP

/-! ## Lemmas on the loops and on indexing -/

/-- Indexing with an in-range index yields the element at that position. -/
theorem goIndex_ok {α : Type} (xs : List α) (i : Int) (h0 : 0 ≤ i) (h1 : i < (xs.length : Int)) :
    ∃ x, xs[i.toNat]? = some x ∧ goIndex xs i = .ok x := by
  have hlt : i.toNat < xs.length := by omega
  refine ⟨xs[i.toNat], List.getElem?_eq_getElem hlt, ?_⟩
  simp [goIndex, h0, List.getElem?_eq_getElem hlt]

/-- Indexing with a negative index panics. -/
theorem goIndex_neg {α : Type} (xs : List α) (i : Int) (h : i < 0) :
    goIndex xs i = .error (.indexOutOfRange i xs.length) := by
  have : ¬ 0 ≤ i := by omega
  simp [goIndex, this]

/-- The first loop of `startBeaconNode` reports an offending index when there is one. -/
theorem checkEndpoints_bad (len : Nat) (eps : List Int)
    (h : ∃ i ∈ eps, i < 0 ∨ i ≥ (len : Int)) :
    ∃ j ∈ eps, (j < 0 ∨ j ≥ (len : Int)) ∧
      checkEndpoints len eps =
        some (.fatalf "only have %d eth1 nodes, cannot find index %d for BN"
          [.int len, .int j]) := by
  induction eps with
  | nil => simp at h
  | cons index rest ih =>
    by_cases hb : index < 0 ∨ index ≥ (len : Int)
    · exact ⟨index, by simp, hb, by simp [checkEndpoints, hb]⟩
    · obtain ⟨i, hi, hbad⟩ := h
      have hrest : ∃ i ∈ rest, i < 0 ∨ i ≥ (len : Int) := by
        rcases List.mem_cons.mp hi with rfl | hi
        · exact absurd hbad hb
        · exact ⟨i, hi, hbad⟩
      obtain ⟨j, hj, hjbad, hres⟩ := ih hrest
      exact ⟨j, List.mem_cons_of_mem _ hj, hjbad, by simp [checkEndpoints, hb, hres]⟩

/-- The first loop of `startBeaconNode` passes when every index is in range. -/
theorem checkEndpoints_good (len : Nat) (eps : List Int)
    (h : ∀ i ∈ eps, 0 ≤ i ∧ i < (len : Int)) : checkEndpoints len eps = none := by
  induction eps with
  | nil => rfl
  | cons index rest ih =>
    have h0 := h index (by simp)
    have hb : ¬ (index < 0 ∨ index ≥ (len : Int)) := by omega
    simp only [checkEndpoints, hb, if_false]
    exact ih (fun i hi => h i (List.mem_cons_of_mem _ hi))

/-! ## Index validation -/

/-- C1: when `eth1Endpoints` holds an index below 0 or not below `len(testnet.eth1)`,
`startBeaconNode` stops with the fatal "only have %d eth1 nodes, cannot find index %d
for BN", reported for an offending index of the list; the only external call made is
the opening `Logf` (no address is resolved, no client is started); the testnet, and so
each of its three lists, is unchanged. -/
theorem startBeaconNode_index_error (p : PreparedTestnet) (w : World) (testnet : Testnet)
    (beaconDef : ClientDefinition) (eth1Endpoints : List Int)
    (h : ∃ i ∈ eth1Endpoints, i < 0 ∨ i ≥ (testnet.eth1.length : Int)) :
    (∃ j ∈ eth1Endpoints, (j < 0 ∨ j ≥ (testnet.eth1.length : Int)) ∧
      (startBeaconNode p w testnet beaconDef eth1Endpoints).err =
        some (.fatalf "only have %d eth1 nodes, cannot find index %d for BN"
          [.int testnet.eth1.length, .int j])) ∧
    (startBeaconNode p w testnet beaconDef eth1Endpoints).trace =
      [.logf "Starting beacon node: %s (%s)" [.str beaconDef.Name, .str beaconDef.Version]] ∧
    startCalls (startBeaconNode p w testnet beaconDef eth1Endpoints).trace = [] ∧
    (startBeaconNode p w testnet beaconDef eth1Endpoints).testnet = testnet ∧
    (startBeaconNode p w testnet beaconDef eth1Endpoints).testnet.eth1 = testnet.eth1 ∧
    (startBeaconNode p w testnet beaconDef eth1Endpoints).testnet.beacons = testnet.beacons ∧
    (startBeaconNode p w testnet beaconDef eth1Endpoints).testnet.validators =
      testnet.validators := by
  obtain ⟨j, hj, hbad, hres⟩ := checkEndpoints_bad testnet.eth1.length eth1Endpoints h
  refine ⟨⟨j, hj, hbad, ?_⟩, ?_, ?_, ?_, ?_, ?_, ?_⟩ <;>
    simp [startBeaconNode, hres, startCalls]

/-- C1, at a testnet with two execution nodes and the endpoints `[0, 2]`. -/
theorem startBeaconNode_index_error_witness :
    (∃ i ∈ [(0 : Int), 2], i < 0 ∨ i ≥ (sampleT.eth1.length : Int)) ∧
    (startBeaconNode sampleP sampleW sampleT ⟨"lighthouse-bn", "v1"⟩ [0, 2]).testnet =
      sampleT ∧
    startCalls (startBeaconNode sampleP sampleW sampleT ⟨"lighthouse-bn", "v1"⟩ [0, 2]).trace
      = [] :=
  ⟨⟨2, by simp, by decide⟩,
   (startBeaconNode_index_error sampleP sampleW sampleT ⟨"lighthouse-bn", "v1"⟩ [0, 2]
      ⟨2, by simp, by decide⟩).2.2.2.1,
   (startBeaconNode_index_error sampleP sampleW sampleT ⟨"lighthouse-bn", "v1"⟩ [0, 2]
      ⟨2, by simp, by decide⟩).2.2.1⟩

/-- Every negative `bnIndex` passes the guard `bnIndex >= len(testnet.beacons)` and
reaches `testnet.beacons[bnIndex]`, which panics. -/
theorem startValidatorClient_negative_bnIndex (p : PreparedTestnet) (w : World)
    (testnet : Testnet) (validatorDef : ClientDefinition) (n : Nat) (keyIndex : Int) :
    (startValidatorClient p w testnet validatorDef (Int.negSucc n) keyIndex).err =
      some (.indexOutOfRange (Int.negSucc n) testnet.beacons.length) := by
  have h1 : ¬ (Int.negSucc n ≥ (testnet.beacons.length : Int)) := by
    have := Int.negSucc_lt_zero n
    omega
  simp [startValidatorClient, h1, goIndex_neg _ _ (Int.negSucc_lt_zero n)]

/-- C2: at a testnet with one beacon node and two key tranches, `startValidatorClient`
with `bnIndex = -1` stops with the run-time panic `index out of range [-1] with length
1`, not with the fatal "only have %d beacon nodes ..."; with `bnIndex = 0` and
`keyIndex = -1` it stops with the panic `index out of range [-1] with length 2`, not
with the fatal "only have %d key tranches ...".  Indices at or above the length do get
the fatal. -/
theorem startValidatorClient_negative_index :
    (startValidatorClient sampleP sampleW sampleT ⟨"lighthouse-vc", "v1"⟩ (-1) 0).err =
      some (.indexOutOfRange (-1) 1) ∧
    (startValidatorClient sampleP sampleW sampleT ⟨"lighthouse-vc", "v1"⟩ 0 (-1)).err =
      some (.indexOutOfRange (-1) 2) ∧
    (startValidatorClient sampleP sampleW sampleT ⟨"lighthouse-vc", "v1"⟩ 1 0).err =
      some (.fatalf "only have %d beacon nodes, cannot find index %d for VC"
        [.int 1, .int 1]) ∧
    (startValidatorClient sampleP sampleW sampleT ⟨"lighthouse-vc", "v1"⟩ 0 2).err =
      some (.fatalf "only have %d key tranches, cannot find index %d for VC"
        [.int 2, .int 2]) ∧
    (startValidatorClient sampleP sampleW (createTestnet sampleP)
        ⟨"lighthouse-vc", "v1"⟩ 0 0).err =
      some (.fatalf "only have %d beacon nodes, cannot find index %d for VC"
        [.int 0, .int 0]) := by
  refine ⟨?_, ?_, ?_, ?_, ?_⟩ <;> decide

/-! ## Validator clients -/

/-- C10: for in-range `bnIndex` and `keyIndex`, `startValidatorClient` calls
`StartClient` exactly once, with the options `[p.validatorOpts,
KeysBundle(p.keyTranches[keyIndex]), {HIVE_ETH2_BN_API_IP: IP of
testnet.beacons[bnIndex]}]`; when that call returns a client the function succeeds and
`testnet.validators` gains the pair of that client and `p.keyTranches[keyIndex]`, the
tranche whose bundle was passed; when it fails the testnet is unchanged. -/
theorem startValidatorClient_success (p : PreparedTestnet) (w : World) (testnet : Testnet)
    (validatorDef : ClientDefinition) (bnIndex keyIndex : Int)
    (hb0 : 0 ≤ bnIndex) (hb1 : bnIndex < (testnet.beacons.length : Int))
    (hk0 : 0 ≤ keyIndex) (hk1 : keyIndex < (p.keyTranches.length : Int)) :
    ∃ bn keys,
      testnet.beacons[bnIndex.toNat]? = some bn ∧
      p.keyTranches[keyIndex.toNat]? = some keys ∧
      startCalls (startValidatorClient p w testnet validatorDef bnIndex keyIndex).trace =
        [(validatorDef.Name,
          [p.validatorOpts, w.KeysBundle keys,
           .params [("HIVE_ETH2_BN_API_IP", bn.client.IP.String)]])] ∧
      (∀ client,
        w.StartClient validatorDef.Name
          [p.validatorOpts, w.KeysBundle keys,
           .params [("HIVE_ETH2_BN_API_IP", bn.client.IP.String)]] = .ok client →
        (startValidatorClient p w testnet validatorDef bnIndex keyIndex).err = none ∧
        (startValidatorClient p w testnet validatorDef bnIndex keyIndex).testnet =
          { testnet with validators := testnet.validators ++ [⟨client, keys⟩] }) ∧
      (∀ err,
        w.StartClient validatorDef.Name
          [p.validatorOpts, w.KeysBundle keys,
           .params [("HIVE_ETH2_BN_API_IP", bn.client.IP.String)]] = .error err →
        (startValidatorClient p w testnet validatorDef bnIndex keyIndex).err =
          some (.startClient err) ∧
        (startValidatorClient p w testnet validatorDef bnIndex keyIndex).testnet = testnet) := by
  obtain ⟨bn, hbn, hgb⟩ := goIndex_ok testnet.beacons bnIndex hb0 hb1
  obtain ⟨keys, hkeys, hgk⟩ := goIndex_ok p.keyTranches keyIndex hk0 hk1
  have h1 : ¬ (bnIndex ≥ (testnet.beacons.length : Int)) := by omega
  have h2 : ¬ (keyIndex ≥ (p.keyTranches.length : Int)) := by omega
  refine ⟨bn, keys, hbn, hkeys, ?_, ?_, ?_⟩
  · simp only [startValidatorClient, h1, h2, hgb, hgk, if_false]
    cases hs : w.StartClient validatorDef.Name
      [p.validatorOpts, w.KeysBundle keys,
       .params [("HIVE_ETH2_BN_API_IP", bn.client.IP.String)]] <;>
      simp [startCalls]
  · intro client hs
    simp [startValidatorClient, h1, h2, hgb, hgk, hs]
  · intro err hs
    simp [startValidatorClient, h1, h2, hgb, hgk, hs]

/-- C10, at a testnet with one beacon node: `bnIndex = 0`, `keyIndex = 1`. -/
theorem startValidatorClient_success_witness :
    ((0 : Int) ≤ 0 ∧ (0 : Int) < (sampleT.beacons.length : Int) ∧
      (0 : Int) ≤ 1 ∧ (1 : Int) < (sampleP.keyTranches.length : Int)) ∧
    ∃ bn keys,
      sampleT.beacons[(0 : Int).toNat]? = some bn ∧
      sampleP.keyTranches[(1 : Int).toNat]? = some keys ∧
      startCalls (startValidatorClient sampleP sampleW sampleT
          ⟨"lighthouse-vc", "v1"⟩ 0 1).trace =
        [("lighthouse-vc",
          [sampleP.validatorOpts, sampleW.KeysBundle keys,
           .params [("HIVE_ETH2_BN_API_IP", bn.client.IP.String)]])] :=
  ⟨by decide,
   (startValidatorClient_success sampleP sampleW sampleT ⟨"lighthouse-vc", "v1"⟩ 0 1
      (by decide) (by decide) (by decide) (by decide)).imp
    (fun _ h => h.imp (fun _ h => ⟨h.1, h.2.1, h.2.2.1⟩))⟩

/-! ## Execution nodes -/

/-- What `startEth1Node` does on a testnet without execution nodes: one `StartClient`
call, whose options are the prepared bundle followed by the credentials chosen by
`consensus`, and no address resolution. -/
theorem startEth1Node_first (p : PreparedTestnet) (w : World) (testnet : Testnet)
    (eth1Def : ClientDefinition) (consensus : ConsensusType) (h : testnet.eth1 = []) :
    startCalls (startEth1Node p w testnet eth1Def consensus).trace =
      [(eth1Def.Name, p.executionOpts ::
        (if consensus = Ethash then
          [.params [("HIVE_MINER", "1212121212121212121212121212121212121212")]]
        else if consensus = Clique then
          [.params [
            ("HIVE_CLIQUE_PRIVATEKEY",
              "9c647b8b7c4e7c3490668fb6c11473619db80c93704c70893d3813af4090c39c"),
            ("HIVE_MINER", "658bdf435d810c91414ec09147daa6db62406379")]]
        else []))] := by
  have hne : ¬ (Clique = Ethash) := by decide
  simp only [startEth1Node, h, List.length_nil, if_true]
  by_cases h1 : consensus = Ethash
  · simp only [h1, if_true]
    split <;> simp [startCalls]
  · by_cases h2 : consensus = Clique
    · subst h2
      simp only [hne, if_true, if_false]
      split <;> simp [startCalls]
    · simp only [h1, h2, if_false]
      split <;> simp [startCalls]

/-- What `startEth1Node` does on a testnet with execution nodes: it resolves the enode
URL of `testnet.eth1[0]`; on an error it stops with the fatal, makes no `StartClient`
call and leaves the testnet unchanged; otherwise it makes one `StartClient` call with
the prepared bundle followed by `{HIVE_BOOTNODE: url}`. -/
theorem startEth1Node_later (p : PreparedTestnet) (w : World) (testnet : Testnet)
    (eth1Def : ClientDefinition) (consensus : ConsensusType) (first : Eth1Node)
    (rest : List Eth1Node) (h : testnet.eth1 = first :: rest) :
    (∀ err, w.EnodeURL first = .error err →
      (startEth1Node p w testnet eth1Def consensus).err =
        some (.fatalf "failed to get eth1 bootnode URL: %v" [.str err]) ∧
      startCalls (startEth1Node p w testnet eth1Def consensus).trace = [] ∧
      (startEth1Node p w testnet eth1Def consensus).testnet = testnet) ∧
    (∀ url, w.EnodeURL first = .ok url →
      startCalls (startEth1Node p w testnet eth1Def consensus).trace =
        [(eth1Def.Name, [p.executionOpts, .params [("HIVE_BOOTNODE", url)]])]) := by
  have hg : goIndex (first :: rest) 0 = .ok first := by simp [goIndex]
  constructor
  · intro err he
    simp [startEth1Node, h, hg, he, startCalls]
  · intro url he
    simp only [startEth1Node, h, hg, he]
    simp
    split <;> simp [startCalls]

/-! ## Effect of a call on the testnet -/

/-- A call of `startEth1Node` either fails and leaves the testnet as it was, or
succeeds and appends one node to `testnet.eth1`, changing nothing else. -/
theorem startEth1Node_testnet (p : PreparedTestnet) (w : World) (testnet : Testnet)
    (eth1Def : ClientDefinition) (consensus : ConsensusType) :
    ((∃ f, (startEth1Node p w testnet eth1Def consensus).err = some f) ∧
      (startEth1Node p w testnet eth1Def consensus).testnet = testnet) ∨
    ((startEth1Node p w testnet eth1Def consensus).err = none ∧
      ∃ en, (startEth1Node p w testnet eth1Def consensus).testnet =
        { testnet with eth1 := testnet.eth1 ++ [en] }) := by
  unfold startEth1Node
  simp only []
  split_ifs <;> (repeat' split) <;> simp

/-- A call of `startBeaconNode` either fails and leaves the testnet as it was, or
succeeds and appends one node to `testnet.beacons`, changing nothing else. -/
theorem startBeaconNode_testnet (p : PreparedTestnet) (w : World) (testnet : Testnet)
    (beaconDef : ClientDefinition) (eth1Endpoints : List Int) :
    ((∃ f, (startBeaconNode p w testnet beaconDef eth1Endpoints).err = some f) ∧
      (startBeaconNode p w testnet beaconDef eth1Endpoints).testnet = testnet) ∨
    ((startBeaconNode p w testnet beaconDef eth1Endpoints).err = none ∧
      ∃ bn, (startBeaconNode p w testnet beaconDef eth1Endpoints).testnet =
        { testnet with beacons := testnet.beacons ++ [bn] }) := by
  unfold startBeaconNode
  simp only []
  (repeat' split) <;> simp

/-- A call of `startValidatorClient` either fails and leaves the testnet as it was, or
succeeds and appends one pair to `testnet.validators`, changing nothing else. -/
theorem startValidatorClient_testnet (p : PreparedTestnet) (w : World) (testnet : Testnet)
    (validatorDef : ClientDefinition) (bnIndex keyIndex : Int) :
    ((∃ f, (startValidatorClient p w testnet validatorDef bnIndex keyIndex).err = some f) ∧
      (startValidatorClient p w testnet validatorDef bnIndex keyIndex).testnet = testnet) ∨
    ((startValidatorClient p w testnet validatorDef bnIndex keyIndex).err = none ∧
      ∃ vc, (startValidatorClient p w testnet validatorDef bnIndex keyIndex).testnet =
        { testnet with validators := testnet.validators ++ [vc] }) := by
  unfold startValidatorClient
  simp only []
  (repeat' split) <;> simp

/-- A step either fails and leaves the testnet as it was, or succeeds and appends one
entry to the list of the call's role, changing nothing else. -/
theorem step_testnet (p : PreparedTestnet) (w : World) (testnet : Testnet) (c : Call) :
    ((∃ f, (step p w testnet c).err = some f) ∧ (step p w testnet c).testnet = testnet) ∨
    ((step p w testnet c).err = none ∧
      match c with
      | .eth1 _ _ => ∃ en, (step p w testnet c).testnet =
          { testnet with eth1 := testnet.eth1 ++ [en] }
      | .beacon _ _ => ∃ bn, (step p w testnet c).testnet =
          { testnet with beacons := testnet.beacons ++ [bn] }
      | .validator _ _ _ => ∃ vc, (step p w testnet c).testnet =
          { testnet with validators := testnet.validators ++ [vc] }) := by
  cases c with
  | eth1 eth1Def consensus => exact startEth1Node_testnet p w testnet eth1Def consensus
  | beacon beaconDef eth1Endpoints =>
    exact startBeaconNode_testnet p w testnet beaconDef eth1Endpoints
  | validator validatorDef bnIndex keyIndex =>
    exact startValidatorClient_testnet p w testnet validatorDef bnIndex keyIndex

/-- The `k`-th call the driver makes is the `k`-th call of the sequence, made on a
testnet that extends the initial one by appended entries only. -/
theorem drive_getElem (p : PreparedTestnet) :
    ∀ (cs : List (World × Call)) (t : Testnet) (k : Nat) (before : Testnet) (out : Outcome),
      (drive p t cs)[k]? = some (before, out) →
      ∃ w c, cs[k]? = some (w, c) ∧ out = step p w before c ∧
        ∃ l1 l2 l3, before = { t with
          eth1 := t.eth1 ++ l1
          beacons := t.beacons ++ l2
          validators := t.validators ++ l3 }
  | [], t, k, before, out, h => by simp [drive] at h
  | (w, c) :: rest, t, 0, before, out, h => by
    simp only [drive, List.getElem?_cons_zero, Option.some.injEq, Prod.mk.injEq] at h
    obtain ⟨rfl, rfl⟩ := h
    exact ⟨w, c, by simp, rfl, [], [], [], by simp⟩
  | (w, c) :: rest, t, k + 1, before, out, h => by
    simp only [drive, List.getElem?_cons_succ] at h
    rcases step_testnet p w t c with ⟨⟨f, hf⟩, _⟩ | ⟨hn, hshape⟩
    · rw [hf] at h
      simp at h
    · rw [hn] at h
      simp only at h
      obtain ⟨w', c', hc, ho, l1, l2, l3, hb⟩ := drive_getElem p rest _ k before out h
      refine ⟨w', c', by simpa using hc, ho, ?_⟩
      cases c with
      | eth1 _ _ =>
        obtain ⟨x, hx⟩ := hshape
        rw [hx] at hb
        exact ⟨x :: l1, l2, l3, by simp [hb]⟩
      | beacon _ _ =>
        obtain ⟨x, hx⟩ := hshape
        rw [hx] at hb
        exact ⟨l1, x :: l2, l3, by simp [hb]⟩
      | validator _ _ _ =>
        obtain ⟨x, hx⟩ := hshape
        rw [hx] at hb
        exact ⟨l1, l2, x :: l3, by simp [hb]⟩

/-- In a run of `startEth1Node` calls, the `k`-th call is made on the initial testnet
extended by `k` execution nodes, the first of which (for `k > 0`) is the node the
first call appended. -/
theorem drive_eth1_getElem (p : PreparedTestnet) :
    ∀ (cs : List (World × ClientDefinition × ConsensusType)) (t : Testnet) (k : Nat)
      (before : Testnet) (out : Outcome),
      (drive p t (cs.map eth1Call))[k]? = some (before, out) →
      ∃ c, cs[k]? = some c ∧ out = startEth1Node p c.1 before c.2.1 c.2.2 ∧
        ∃ l, l.length = k ∧ before = { t with eth1 := t.eth1 ++ l } ∧
          ∀ t0 out0 en l', (drive p t (cs.map eth1Call))[0]? = some (t0, out0) →
            l = en :: l' → out0.testnet.eth1 = t.eth1 ++ [en]
  | [], t, k, before, out, h => by simp [drive] at h
  | c :: rest, t, 0, before, out, h => by
    simp only [List.map_cons, drive, List.getElem?_cons_zero, Option.some.injEq,
      Prod.mk.injEq] at h
    obtain ⟨rfl, rfl⟩ := h
    exact ⟨c, by simp, rfl, [], rfl, by simp, fun _ _ _ _ _ hl => by simp at hl⟩
  | c :: rest, t, k + 1, before, out, h => by
    simp only [List.map_cons, drive, List.getElem?_cons_succ] at h
    rcases startEth1Node_testnet p c.1 t c.2.1 c.2.2 with ⟨⟨f, hf⟩, _⟩ | ⟨hn, en, hen⟩
    · simp only [eth1Call, step] at h
      rw [hf] at h
      simp at h
    · simp only [eth1Call, step] at h
      rw [hn] at h
      simp only at h
      obtain ⟨c', hc, ho, l, hl, hb, _⟩ := drive_eth1_getElem p rest _ k before out h
      refine ⟨c', by simpa using hc, ho, en :: l, by simp [hl], ?_, ?_⟩
      · rw [hb, hen]
        simp
      · intro t0 out0 en' l' h0 hl'
        simp only [List.map_cons, drive, List.getElem?_cons_zero, Option.some.injEq,
          Prod.mk.injEq, eth1Call, step] at h0
        obtain ⟨_, rfl⟩ := h0
        simp only [List.cons.injEq] at hl'
        rw [← hl'.1, hen]

/-- A run in which every outcome is a success makes every call of the sequence. -/
theorem drive_length (p : PreparedTestnet) :
    ∀ (cs : List (World × Call)) (t : Testnet),
      (∀ r ∈ drive p t cs, r.2.err = none) → (drive p t cs).length = cs.length
  | [], _, _ => by simp [drive]
  | (w, c) :: rest, t, h => by
    have h0 : (step p w t c).err = none := h (t, step p w t c) (by simp [drive])
    have hrest : ∀ r ∈ drive p (step p w t c).testnet rest, r.2.err = none := by
      intro r hr
      apply h r
      simp only [drive, h0]
      exact List.mem_cons_of_mem _ hr
    have ih := drive_length p rest (step p w t c).testnet hrest
    simp only [drive, h0, List.length_cons, ih]

/-! ## Bootstrap peer and producer credentials of execution nodes -/

/-- C3: in every run of successful `startEth1Node` calls on a freshly created testnet,
all calls are made; the first call is made with `testnet.eth1` empty and passes
`StartClient` options that add no `HIVE_BOOTNODE` key; every later call (the `k`-th,
`k > 0`) is made with `k` nodes in `testnet.eth1`, resolves the enode URL of
`testnet.eth1[0]`, which is the node appended by the first call, and passes exactly
`[p.executionOpts, {HIVE_BOOTNODE: url}]`.  For any testnet with execution nodes, when
the enode URL of `testnet.eth1[0]` cannot be resolved the call stops with the fatal,
starts no client and leaves the testnet unchanged. -/
theorem startEth1Node_bootnode (p : PreparedTestnet)
    (calls : List (World × ClientDefinition × ConsensusType))
    (hsucc : ∀ r ∈ drive p (createTestnet p) (calls.map eth1Call), r.2.err = none) :
    (drive p (createTestnet p) (calls.map eth1Call)).length = calls.length ∧
    (∀ before out, (drive p (createTestnet p) (calls.map eth1Call))[0]? = some (before, out) →
      before.eth1 = [] ∧
      ∃ c added, calls[0]? = some c ∧
        startCalls out.trace = [(c.2.1.Name, p.executionOpts :: added)] ∧
        "HIVE_BOOTNODE" ∉ addedKeys (p.executionOpts :: added)) ∧
    (∀ k before out, 0 < k →
      (drive p (createTestnet p) (calls.map eth1Call))[k]? = some (before, out) →
      ∃ c first rest url, calls[k]? = some c ∧
        before.eth1 = first :: rest ∧ rest.length + 1 = k ∧
        (∃ t0 out0, (drive p (createTestnet p) (calls.map eth1Call))[0]? = some (t0, out0) ∧
          out0.testnet.eth1 = [first]) ∧
        c.1.EnodeURL first = .ok url ∧
        startCalls out.trace =
          [(c.2.1.Name, [p.executionOpts, .params [("HIVE_BOOTNODE", url)]])]) ∧
    (∀ (w : World) (testnet : Testnet) (eth1Def : ClientDefinition)
        (consensus : ConsensusType) (first : Eth1Node) (rest : List Eth1Node) (err : String),
      testnet.eth1 = first :: rest → w.EnodeURL first = .error err →
      (startEth1Node p w testnet eth1Def consensus).err =
        some (.fatalf "failed to get eth1 bootnode URL: %v" [.str err]) ∧
      startCalls (startEth1Node p w testnet eth1Def consensus).trace = [] ∧
      (startEth1Node p w testnet eth1Def consensus).testnet = testnet) := by
  refine ⟨?_, ?_, ?_, ?_⟩
  · rw [drive_length p _ _ hsucc]
    simp
  · intro before out h
    obtain ⟨c, hc, ho, l, hl, hb, _⟩ := drive_eth1_getElem p calls _ 0 before out h
    have hl0 : l = [] := List.length_eq_zero.mp hl
    have hbe : before.eth1 = [] := by rw [hb, hl0]; simp [createTestnet]
    refine ⟨hbe, c,
      (if c.2.2 = Ethash then
        [.params [("HIVE_MINER", "1212121212121212121212121212121212121212")]]
      else if c.2.2 = Clique then
        [.params [
          ("HIVE_CLIQUE_PRIVATEKEY",
            "9c647b8b7c4e7c3490668fb6c11473619db80c93704c70893d3813af4090c39c"),
          ("HIVE_MINER", "658bdf435d810c91414ec09147daa6db62406379")]]
      else []), hc, ?_, ?_⟩
    · rw [ho]
      exact startEth1Node_first p c.1 before c.2.1 c.2.2 hbe
    · have hne : ¬ (Clique = Ethash) := by decide
      by_cases h1 : c.2.2 = Ethash
      · simp [h1, addedKeys, addedParams, entriesOf]
      · by_cases h2 : c.2.2 = Clique
        · simp [h2, hne, addedKeys, addedParams, entriesOf]
        · simp [h1, h2, addedKeys, addedParams, entriesOf]
  · intro k before out hk h
    obtain ⟨c, hc, ho, l, hl, hb, hfirst⟩ := drive_eth1_getElem p calls _ k before out h
    obtain ⟨first, rest, hlr⟩ := List.exists_cons_of_length_pos (l := l) (by omega)
    have hbe : before.eth1 = first :: rest := by rw [hb, hlr]; simp [createTestnet]
    have hlen : 0 < (drive p (createTestnet p) (calls.map eth1Call)).length := by
      have := (List.getElem?_eq_some.mp h).1
      omega
    have hlater := startEth1Node_later p c.1 before c.2.1 c.2.2 first rest hbe
    have herr : out.err = none := hsucc (before, out) (List.getElem?_mem h)
    cases hu : c.1.EnodeURL first with
    | error e =>
      have := (hlater.1 e hu).1
      rw [← ho, herr] at this
      simp at this
    | ok url =>
      refine ⟨c, first, rest, url, hc, hbe, ?_, ?_, hu, ?_⟩
      · rw [← hl, hlr]
        simp
      · refine ⟨_, _, List.getElem?_eq_getElem hlen, ?_⟩
        have := hfirst _ _ first rest (List.getElem?_eq_getElem hlen) hlr
        simpa [createTestnet] using this
      · rw [ho]
        exact hlater.2 url hu
  · intro w testnet eth1Def consensus first rest err h he
    exact (startEth1Node_later p w testnet eth1Def consensus first rest h).1 err he

/-- C3, at a run of three successful calls: all three are made. -/
theorem startEth1Node_bootnode_witness :
    (∀ r ∈ drive sampleP (createTestnet sampleP) (sampleEth1Calls.map eth1Call),
      r.2.err = none) ∧
    (drive sampleP (createTestnet sampleP) (sampleEth1Calls.map eth1Call)).length =
      sampleEth1Calls.length :=
  ⟨by decide, (startEth1Node_bootnode sampleP sampleEth1Calls (by decide)).1⟩

/-- C8 (as amended): on a testnet without execution nodes `startEth1Node` passes
`StartClient` the prepared bundle followed, for `Ethash`, by exactly `{HIVE_MINER:
"1212..."}`; for `Clique`, by exactly `{HIVE_CLIQUE_PRIVATEKEY: "9c64...", HIVE_MINER:
"658b..."}`; for any other value, by nothing.  On a testnet with execution nodes no
`StartClient` call of `startEth1Node` adds `HIVE_MINER` or `HIVE_CLIQUE_PRIVATEKEY`. -/
theorem startEth1Node_producer_credentials (p : PreparedTestnet) (w : World)
    (testnet : Testnet) (eth1Def : ClientDefinition) (consensus : ConsensusType) :
    (testnet.eth1 = [] → consensus = Ethash →
      startCalls (startEth1Node p w testnet eth1Def consensus).trace =
        [(eth1Def.Name, [p.executionOpts,
          .params [("HIVE_MINER", "1212121212121212121212121212121212121212")]])]) ∧
    (testnet.eth1 = [] → consensus = Clique →
      startCalls (startEth1Node p w testnet eth1Def consensus).trace =
        [(eth1Def.Name, [p.executionOpts,
          .params [
            ("HIVE_CLIQUE_PRIVATEKEY",
              "9c647b8b7c4e7c3490668fb6c11473619db80c93704c70893d3813af4090c39c"),
            ("HIVE_MINER", "658bdf435d810c91414ec09147daa6db62406379")]])]) ∧
    (testnet.eth1 = [] → consensus ≠ Ethash → consensus ≠ Clique →
      startCalls (startEth1Node p w testnet eth1Def consensus).trace =
        [(eth1Def.Name, [p.executionOpts])]) ∧
    (testnet.eth1 ≠ [] →
      ∀ c ∈ startCalls (startEth1Node p w testnet eth1Def consensus).trace,
        "HIVE_MINER" ∉ addedKeys c.2 ∧ "HIVE_CLIQUE_PRIVATEKEY" ∉ addedKeys c.2) := by
  refine ⟨?_, ?_, ?_, ?_⟩
  · intro h hc
    rw [startEth1Node_first p w testnet eth1Def consensus h]
    simp [hc]
  · intro h hc
    have hne : ¬ (Clique = Ethash) := by decide
    rw [startEth1Node_first p w testnet eth1Def consensus h]
    simp [hc, hne]
  · intro h h1 h2
    rw [startEth1Node_first p w testnet eth1Def consensus h]
    simp [h1, h2]
  · intro h c hc
    obtain ⟨first, rest, hfr⟩ := List.exists_cons_of_ne_nil h
    have hlater := startEth1Node_later p w testnet eth1Def consensus first rest hfr
    cases hu : w.EnodeURL first with
    | error e =>
      rw [(hlater.1 e hu).2.1] at hc
      simp at hc
    | ok url =>
      rw [hlater.2 url hu] at hc
      simp only [List.mem_singleton] at hc
      subst hc
      simp [addedKeys, addedParams, entriesOf]

/-- C8 (as amended), at the first node of a Clique network. -/
theorem startEth1Node_producer_credentials_witness :
    (createTestnet sampleP).eth1 = [] ∧ Clique = Clique ∧
    startCalls (startEth1Node sampleP sampleW (createTestnet sampleP)
        ⟨"go-ethereum", "v1"⟩ Clique).trace =
      [("go-ethereum", [sampleP.executionOpts,
        .params [
          ("HIVE_CLIQUE_PRIVATEKEY",
            "9c647b8b7c4e7c3490668fb6c11473619db80c93704c70893d3813af4090c39c"),
          ("HIVE_MINER", "658bdf435d810c91414ec09147daa6db62406379")]])] :=
  ⟨rfl, rfl,
   (startEth1Node_producer_credentials sampleP sampleW (createTestnet sampleP)
      ⟨"go-ethereum", "v1"⟩ Clique).2.1 rfl rfl⟩

/-- C8, as stated, fails: with the algorithm value 2 (neither `Ethash` nor `Clique`)
the first execution node is started successfully with the prepared bundle alone.  The
call adds no `HIVE_MINER` and no `HIVE_CLIQUE_PRIVATEKEY`, so the node is not
configured as a block producer. -/
theorem startEth1Node_other_consensus_no_producer :
    (createTestnet sampleP).eth1 = [] ∧
    (startEth1Node sampleP sampleW (createTestnet sampleP) ⟨"go-ethereum", "v1"⟩ 2).err =
      none ∧
    startCalls (startEth1Node sampleP sampleW (createTestnet sampleP)
        ⟨"go-ethereum", "v1"⟩ 2).trace = [("go-ethereum", [sampleP.executionOpts])] ∧
    "HIVE_MINER" ∉ addedKeys [sampleP.executionOpts] ∧
    "HIVE_CLIQUE_PRIVATEKEY" ∉ addedKeys [sampleP.executionOpts] := by
  refine ⟨rfl, by decide, ?_, by decide, by decide⟩
  rfl

/-! ## The node lists only grow -/

/-- C9: take any run of start calls from any testnet `t` and any call of the run that
succeeds, made on the testnet `before` and leaving `out.testnet`.  The call is the
step of the sequence at that position; it appends exactly one entry to the list of its
role (`eth1` for `startEth1Node`, `beacons` for `startBeaconNode`, `validators` for
`startValidatorClient`), keeping the earlier entries in place, and leaves the other two
lists unchanged; the total number of entries grows by one; `genesisTime`,
`genesisValidatorsRoot` and `spec` are unchanged.  With respect to the initial testnet
`t`, the three lists of `out.testnet` are those of `t` followed by appended entries,
the constants are those of `t`, and an entry at index 0 of a list of `t` is still the
entry at index 0. -/
theorem step_append_only (p : PreparedTestnet) (t : Testnet) (cs : List (World × Call))
    (k : Nat) (before : Testnet) (out : Outcome)
    (hk : (drive p t cs)[k]? = some (before, out)) (hok : out.err = none) :
    (∃ w c, cs[k]? = some (w, c) ∧ out = step p w before c ∧
      match c with
      | .eth1 _ _ => ∃ en, out.testnet.eth1 = before.eth1 ++ [en] ∧
          out.testnet.beacons = before.beacons ∧ out.testnet.validators = before.validators
      | .beacon _ _ => ∃ bn, out.testnet.beacons = before.beacons ++ [bn] ∧
          out.testnet.eth1 = before.eth1 ∧ out.testnet.validators = before.validators
      | .validator _ _ _ => ∃ vc, out.testnet.validators = before.validators ++ [vc] ∧
          out.testnet.eth1 = before.eth1 ∧ out.testnet.beacons = before.beacons) ∧
    out.testnet.eth1.length + out.testnet.beacons.length + out.testnet.validators.length =
      before.eth1.length + before.beacons.length + before.validators.length + 1 ∧
    (out.testnet.genesisTime = before.genesisTime ∧
      out.testnet.genesisValidatorsRoot = before.genesisValidatorsRoot ∧
      out.testnet.spec = before.spec) ∧
    (∃ l1 l2 l3, out.testnet.eth1 = t.eth1 ++ l1 ∧ out.testnet.beacons = t.beacons ++ l2 ∧
      out.testnet.validators = t.validators ++ l3) ∧
    (out.testnet.genesisTime = t.genesisTime ∧
      out.testnet.genesisValidatorsRoot = t.genesisValidatorsRoot ∧
      out.testnet.spec = t.spec) ∧
    (∀ en, t.eth1[0]? = some en → out.testnet.eth1[0]? = some en) ∧
    (∀ bn, t.beacons[0]? = some bn → out.testnet.beacons[0]? = some bn) ∧
    (∀ vc, t.validators[0]? = some vc → out.testnet.validators[0]? = some vc) := by
  obtain ⟨w, c, hc, ho, l1, l2, l3, hb⟩ := drive_getElem p cs t k before out hk
  have hkeep : ∀ {α : Type} (xs ys : List α) (x : α), xs[0]? = some x →
      (xs ++ ys)[0]? = some x := by
    intro α xs ys x hx
    cases xs with
    | nil => simp at hx
    | cons a as => simpa using hx
  rcases step_testnet p w before c with ⟨⟨f, hf⟩, _⟩ | ⟨_, hshape⟩
  · rw [ho, hf] at hok
    simp at hok
  · rw [← ho] at hshape
    cases c with
    | eth1 eth1Def consensus =>
      obtain ⟨en, hen⟩ := hshape
      refine ⟨⟨w, _, hc, ho, en, by simp [hen]⟩, by simp [hen]; omega, by simp [hen],
        ⟨l1 ++ [en], l2, l3, by simp [hen, hb]⟩, by simp [hen, hb], ?_, ?_, ?_⟩
      · intro x hx
        simpa [hen, hb] using hkeep t.eth1 (l1 ++ [en]) x hx
      · intro x hx
        simpa [hen, hb] using hkeep t.beacons l2 x hx
      · intro x hx
        simpa [hen, hb] using hkeep t.validators l3 x hx
    | beacon beaconDef eth1Endpoints =>
      obtain ⟨bn, hbn⟩ := hshape
      refine ⟨⟨w, _, hc, ho, bn, by simp [hbn]⟩, by simp [hbn]; omega, by simp [hbn],
        ⟨l1, l2 ++ [bn], l3, by simp [hbn, hb]⟩, by simp [hbn, hb], ?_, ?_, ?_⟩
      · intro x hx
        simpa [hbn, hb] using hkeep t.eth1 l1 x hx
      · intro x hx
        simpa [hbn, hb] using hkeep t.beacons (l2 ++ [bn]) x hx
      · intro x hx
        simpa [hbn, hb] using hkeep t.validators l3 x hx
    | validator validatorDef bnIndex keyIndex =>
      obtain ⟨vc, hvc⟩ := hshape
      refine ⟨⟨w, _, hc, ho, vc, by simp [hvc]⟩, by simp [hvc]; omega, by simp [hvc],
        ⟨l1, l2, l3 ++ [vc], by simp [hvc, hb]⟩, by simp [hvc, hb], ?_, ?_, ?_⟩
      · intro x hx
        simpa [hvc, hb] using hkeep t.eth1 l1 x hx
      · intro x hx
        simpa [hvc, hb] using hkeep t.beacons l2 x hx
      · intro x hx
        simpa [hvc, hb] using hkeep t.validators (l3 ++ [vc]) x hx

/-- C9, at the third call of the sample run: the call succeeds, and the first
execution node of the initial testnet is still the first. -/
theorem step_append_only_witness :
    (drive sampleP sampleT sampleCalls)[2]? =
      some (sampleBefore,
        step sampleP sampleW sampleBefore (.validator ⟨"lighthouse-vc", "v1"⟩ 1 0)) ∧
    (step sampleP sampleW sampleBefore (.validator ⟨"lighthouse-vc", "v1"⟩ 1 0)).err = none ∧
    (step sampleP sampleW sampleBefore
      (.validator ⟨"lighthouse-vc", "v1"⟩ 1 0)).testnet.eth1[0]? =
      some (sampleEth1 "10.0.0.1") :=
  ⟨rfl, by decide,
   (step_append_only sampleP sampleT sampleCalls 2 sampleBefore
     (step sampleP sampleW sampleBefore (.validator ⟨"lighthouse-vc", "v1"⟩ 1 0))
     rfl (by decide)).2.2.2.2.2.1 (sampleEth1 "10.0.0.1") (by decide)⟩

/-! ## Execution endpoints and bootstrap peer of beacon nodes -/

/-- The `StartClient` calls of a concatenated trace. -/
theorem startCalls_append (xs ys : List Event) :
    startCalls (xs ++ ys) = startCalls xs ++ startCalls ys := by
  induction xs with
  | nil => rfl
  | cons e rest ih => cases e <;> simp [startCalls, ih]

/-- The second loop of `startBeaconNode` starts no client. -/
theorem resolveEndpoints_startCalls (w : World) (eth1 : List Eth1Node) :
    ∀ (eps : List Int) (addrs engineAddrs : List String) (tr : List Event),
      startCalls (resolveEndpoints w eth1 eps addrs engineAddrs tr).1 = startCalls tr
  | [], _, _, _ => rfl
  | index :: rest, addrs, engineAddrs, tr => by
    simp only [resolveEndpoints]
    split
    · rfl
    · split
      · simp [startCalls_append, startCalls]
      · split
        · simp [startCalls_append, startCalls]
        · rw [resolveEndpoints_startCalls w eth1 rest]
          simp [startCalls_append, startCalls]

/-- The second loop of `startBeaconNode`, when every index is in range and every
referenced node exposes both addresses: it ends normally, having appended to `addrs`
and `engineAddrs` the addresses of the referenced nodes in the order of the indices. -/
theorem resolveEndpoints_ok (w : World) (eth1 : List Eth1Node) :
    ∀ (eps : List Int) (addrs engineAddrs : List String) (tr : List Event),
      (∀ i ∈ eps, 0 ≤ i ∧ i < (eth1.length : Int)) →
      (∀ i ∈ eps, ∀ n, eth1[i.toNat]? = some n →
        (∃ a, w.UserRPCAddress n = .ok a) ∧ (∃ e, w.EngineRPCAddress n = .ok e)) →
      ∃ as es tr',
        resolveEndpoints w eth1 eps addrs engineAddrs tr =
          (tr', .ok (addrs ++ as, engineAddrs ++ es)) ∧
        eps.map (fun i => Option.map w.UserRPCAddress eth1[i.toNat]?) =
          as.map (fun a => some (.ok a)) ∧
        eps.map (fun i => Option.map w.EngineRPCAddress eth1[i.toNat]?) =
          es.map (fun e => some (.ok e))
  | [], addrs, engineAddrs, tr, _, _ => ⟨[], [], tr, by simp [resolveEndpoints], rfl, rfl⟩
  | index :: rest, addrs, engineAddrs, tr, hr, ha => by
    obtain ⟨h0, h1⟩ := hr index (by simp)
    obtain ⟨n, hn, hg⟩ := goIndex_ok eth1 index h0 h1
    obtain ⟨⟨a, hua⟩, ⟨e, hue⟩⟩ := ha index (by simp) n hn
    obtain ⟨as, es, tr', hres, hmu, hme⟩ :=
      resolveEndpoints_ok w eth1 rest (addrs ++ [a]) (engineAddrs ++ [e])
        (tr ++ [.userRPCAddress n, .engineRPCAddress n])
        (fun i hi => hr i (List.mem_cons_of_mem _ hi))
        (fun i hi => ha i (List.mem_cons_of_mem _ hi))
    refine ⟨a :: as, e :: es, tr', ?_, ?_, ?_⟩
    · simp only [resolveEndpoints, hg, hua, hue, hres]
      simp
    · simp [hn, hua, hmu]
    · simp [hn, hue, hme]

/-- C6: when every index of `eth1Endpoints` is in range and every referenced node
exposes both addresses, there are lists `addrs` and `engineAddrs` that hold, position
by position, the user-RPC and the engine-RPC address of `testnet.eth1[i]` for `i`
running over `eth1Endpoints` in order (so both have `len(eth1Endpoints)` entries, equal
indices give equal addresses, and no index gives two empty lists, joined to two empty
strings), and the second option passed to `StartClient` is `{HIVE_ETH2_ETH1_RPC_ADDRS:
join(addrs, ","), HIVE_ETH2_ETH1_ENGINE_RPC_ADDRS: join(engineAddrs, ",")}`: the call
is made with `[p.beaconOpts, that option]` when `testnet.beacons` is empty and with the
bootstrap option after them when the ENR of `testnet.beacons[0]` resolves. -/
theorem startBeaconNode_eth1_addrs (p : PreparedTestnet) (w : World) (testnet : Testnet)
    (beaconDef : ClientDefinition) (eth1Endpoints : List Int)
    (hrange : ∀ i ∈ eth1Endpoints, 0 ≤ i ∧ i < (testnet.eth1.length : Int))
    (haddr : ∀ i ∈ eth1Endpoints, ∀ n, testnet.eth1[i.toNat]? = some n →
      (∃ a, w.UserRPCAddress n = .ok a) ∧ (∃ e, w.EngineRPCAddress n = .ok e)) :
    ∃ addrs engineAddrs : List String,
      eth1Endpoints.map (fun i => Option.map w.UserRPCAddress testnet.eth1[i.toNat]?) =
        addrs.map (fun a => some (.ok a)) ∧
      eth1Endpoints.map (fun i => Option.map w.EngineRPCAddress testnet.eth1[i.toNat]?) =
        engineAddrs.map (fun e => some (.ok e)) ∧
      addrs.length = eth1Endpoints.length ∧ engineAddrs.length = eth1Endpoints.length ∧
      (∀ j k : Nat, eth1Endpoints[j]? = eth1Endpoints[k]? →
        addrs[j]? = addrs[k]? ∧ engineAddrs[j]? = engineAddrs[k]?) ∧
      (eth1Endpoints = [] → addrs = [] ∧ engineAddrs = [] ∧
        ",".intercalate addrs = "" ∧ ",".intercalate engineAddrs = "") ∧
      (testnet.beacons = [] →
        startCalls (startBeaconNode p w testnet beaconDef eth1Endpoints).trace =
          [(beaconDef.Name, [p.beaconOpts,
            .params [
              ("HIVE_ETH2_ETH1_RPC_ADDRS", ",".intercalate addrs),
              ("HIVE_ETH2_ETH1_ENGINE_RPC_ADDRS", ",".intercalate engineAddrs)]])]) ∧
      (∀ first rest enr, testnet.beacons = first :: rest → w.ENR first = .ok enr →
        startCalls (startBeaconNode p w testnet beaconDef eth1Endpoints).trace =
          [(beaconDef.Name, [p.beaconOpts,
            .params [
              ("HIVE_ETH2_ETH1_RPC_ADDRS", ",".intercalate addrs),
              ("HIVE_ETH2_ETH1_ENGINE_RPC_ADDRS", ",".intercalate engineAddrs)],
            .params [("HIVE_ETH2_BOOTNODE_ENRS", enr)]])]) := by
  have hchk := checkEndpoints_good testnet.eth1.length eth1Endpoints hrange
  obtain ⟨addrs, engineAddrs, tr', hres, hmu, hme⟩ :=
    resolveEndpoints_ok w testnet.eth1 eth1Endpoints [] []
      [.logf "Starting beacon node: %s (%s)" [.str beaconDef.Name, .str beaconDef.Version]]
      hrange haddr
  have htr : startCalls tr' = [] := by
    have := resolveEndpoints_startCalls w testnet.eth1 eth1Endpoints [] []
      [.logf "Starting beacon node: %s (%s)" [.str beaconDef.Name, .str beaconDef.Version]]
    rw [hres] at this
    simpa [startCalls] using this
  have hlu : addrs.length = eth1Endpoints.length := by
    have := congrArg List.length hmu
    simpa using this.symm
  have hle : engineAddrs.length = eth1Endpoints.length := by
    have := congrArg List.length hme
    simpa using this.symm
  have hinj : ∀ {α : Type} (xs : List α) (f : α → Option (Except String String)) (ys : List String)
      (j k : Nat), xs.map f = ys.map (fun a => some (.ok a)) → xs[j]? = xs[k]? →
      ys[j]? = ys[k]? := by
    intro α xs f ys j k hm hjk
    have hj := congrArg (fun l => l[j]?) hm
    have hk' := congrArg (fun l => l[k]?) hm
    simp only [List.getElem?_map] at hj hk'
    rw [hjk, hk'] at hj
    have hinj' : Function.Injective (fun a : String => some (Except.ok (ε := String) a)) := by
      intro a b hab
      simpa using hab
    exact ((Option.map_injective hinj') hj).symm
  refine ⟨addrs, engineAddrs, hmu, hme, hlu, hle, ?_, ?_, ?_, ?_⟩
  · intro j k hjk
    exact ⟨hinj _ _ _ j k hmu hjk, hinj _ _ _ j k hme hjk⟩
  · intro he
    subst he
    have ha : addrs = [] := List.length_eq_zero.mp (by simpa using hlu)
    have hb : engineAddrs = [] := List.length_eq_zero.mp (by simpa using hle)
    subst ha hb
    exact ⟨rfl, rfl, rfl, rfl⟩
  · intro hb
    simp only [startBeaconNode, hchk, hres, hb, List.nil_append, List.length_nil,
      gt_iff_lt, lt_self_iff_false, if_false]
    split <;> simp [startCalls_append, htr, startCalls]
  · intro first rest enr hb henr
    have hg : goIndex (first :: rest) 0 = .ok first := by simp [goIndex]
    simp only [startBeaconNode, hchk, hres, hb, List.nil_append, List.length_cons,
      gt_iff_lt, Nat.zero_lt_succ, if_true, hg, henr]
    split <;> simp [startCalls_append, htr, startCalls]

/-- C6, at the sample testnet with the endpoints `[1, 0, 1]`. -/
theorem startBeaconNode_eth1_addrs_witness :
    ((∀ i ∈ [(1 : Int), 0, 1], 0 ≤ i ∧ i < (sampleT.eth1.length : Int)) ∧
      (∀ i ∈ [(1 : Int), 0, 1], ∀ n, sampleT.eth1[i.toNat]? = some n →
        (∃ a, sampleW.UserRPCAddress n = .ok a) ∧
        (∃ e, sampleW.EngineRPCAddress n = .ok e))) ∧
    ∃ addrs engineAddrs : List String,
      addrs.length = [(1 : Int), 0, 1].length ∧
      engineAddrs.length = [(1 : Int), 0, 1].length ∧
      startCalls (startBeaconNode sampleP sampleW sampleT ⟨"lighthouse-bn", "v1"⟩
          [1, 0, 1]).trace =
        [("lighthouse-bn", [sampleP.beaconOpts,
          .params [
            ("HIVE_ETH2_ETH1_RPC_ADDRS", ",".intercalate addrs),
            ("HIVE_ETH2_ETH1_ENGINE_RPC_ADDRS", ",".intercalate engineAddrs)],
          .params [("HIVE_ETH2_BOOTNODE_ENRS", "enr:10.0.1.1")]])] :=
  ⟨⟨by decide, fun _ _ _ _ => ⟨⟨_, rfl⟩, ⟨_, rfl⟩⟩⟩,
   (startBeaconNode_eth1_addrs sampleP sampleW sampleT ⟨"lighthouse-bn", "v1"⟩ [1, 0, 1]
      (by decide) (fun _ _ _ _ => ⟨⟨_, rfl⟩, ⟨_, rfl⟩⟩)).imp
    (fun _ h => h.imp (fun _ h =>
      ⟨h.2.2.1, h.2.2.2.1, h.2.2.2.2.2.2.2 (sampleBeacon "10.0.1.1") [] "enr:10.0.1.1" rfl rfl⟩))⟩

/-- The options of the sample beacon node with the endpoints `[1, 0, 1]`, evaluated. -/
theorem startBeaconNode_sample_options :
    startCalls (startBeaconNode sampleP sampleW sampleT ⟨"lighthouse-bn", "v1"⟩
        [1, 0, 1]).trace =
      [("lighthouse-bn", [sampleP.beaconOpts,
        .params [
          ("HIVE_ETH2_ETH1_RPC_ADDRS",
            "http://10.0.0.2:8545,http://10.0.0.1:8545,http://10.0.0.2:8545"),
          ("HIVE_ETH2_ETH1_ENGINE_RPC_ADDRS",
            "http://10.0.0.2:8551,http://10.0.0.1:8551,http://10.0.0.2:8551")],
        .params [("HIVE_ETH2_BOOTNODE_ENRS", "enr:10.0.1.1")]])] := by
  rfl

/-- C7: a successful `startBeaconNode` call makes one `StartClient` call, with the
prepared bundle, the endpoint option and the bootstrap options `boot`.  The added
options contain `HIVE_ETH2_BOOTNODE_ENRS` exactly when `testnet.beacons` was non-empty
before the call; in that case `boot` is `{HIVE_ETH2_BOOTNODE_ENRS: enr}` with `enr` the
ENR of `testnet.beacons[0]`, and otherwise `boot` is empty.  For any call on a testnet
with beacon nodes, when the ENR of `testnet.beacons[0]` is unavailable the call fails,
starts no client and leaves the testnet unchanged. -/
theorem startBeaconNode_bootnode (p : PreparedTestnet) (w : World) (testnet : Testnet)
    (beaconDef : ClientDefinition) (eth1Endpoints : List Int)
    (hok : (startBeaconNode p w testnet beaconDef eth1Endpoints).err = none) :
    (∃ rpcAddrs engineRPCAddrs boot,
      startCalls (startBeaconNode p w testnet beaconDef eth1Endpoints).trace =
        [(beaconDef.Name, p.beaconOpts ::
          .params [
            ("HIVE_ETH2_ETH1_RPC_ADDRS", rpcAddrs),
            ("HIVE_ETH2_ETH1_ENGINE_RPC_ADDRS", engineRPCAddrs)] :: boot)] ∧
      ("HIVE_ETH2_BOOTNODE_ENRS" ∈ addedKeys (p.beaconOpts ::
          .params [
            ("HIVE_ETH2_ETH1_RPC_ADDRS", rpcAddrs),
            ("HIVE_ETH2_ETH1_ENGINE_RPC_ADDRS", engineRPCAddrs)] :: boot) ↔
        testnet.beacons ≠ []) ∧
      (testnet.beacons = [] → boot = []) ∧
      (∀ first rest, testnet.beacons = first :: rest →
        ∃ enr, w.ENR first = .ok enr ∧
          boot = [.params [("HIVE_ETH2_BOOTNODE_ENRS", enr)]])) ∧
    (∀ (w' : World) (testnet' : Testnet) (beaconDef' : ClientDefinition)
        (eth1Endpoints' : List Int) (first : BeaconNode) (rest : List BeaconNode)
        (err : String),
      testnet'.beacons = first :: rest → w'.ENR first = .error err →
      (∃ f, (startBeaconNode p w' testnet' beaconDef' eth1Endpoints').err = some f) ∧
      startCalls (startBeaconNode p w' testnet' beaconDef' eth1Endpoints').trace = [] ∧
      (startBeaconNode p w' testnet' beaconDef' eth1Endpoints').testnet = testnet') := by
  constructor
  · revert hok
    simp only [startBeaconNode]
    cases hchk : checkEndpoints testnet.eth1.length eth1Endpoints with
    | some f => simp
    | none =>
      have htr := resolveEndpoints_startCalls w testnet.eth1 eth1Endpoints [] []
        [.logf "Starting beacon node: %s (%s)" [.str beaconDef.Name, .str beaconDef.Version]]
      rcases hres : resolveEndpoints w testnet.eth1 eth1Endpoints [] []
        [.logf "Starting beacon node: %s (%s)" [.str beaconDef.Name, .str beaconDef.Version]]
        with ⟨tr', r⟩
      rw [hres] at htr
      simp only [startCalls] at htr
      cases r with
      | error f => simp
      | ok pr =>
        obtain ⟨addrs, engineAddrs⟩ := pr
        cases hb : testnet.beacons with
        | nil =>
          simp only [List.length_nil, gt_iff_lt, lt_self_iff_false, if_false, List.nil_append]
          cases hs : w.StartClient beaconDef.Name
            ([p.beaconOpts] ++ [.params [
              ("HIVE_ETH2_ETH1_RPC_ADDRS", ",".intercalate addrs),
              ("HIVE_ETH2_ETH1_ENGINE_RPC_ADDRS", ",".intercalate engineAddrs)]]) with
          | error e => simp_all
          | ok client =>
            intro _
            refine ⟨",".intercalate addrs, ",".intercalate engineAddrs, [], ?_, ?_, ?_, ?_⟩
            · simp_all [startCalls_append, startCalls]
            · simp [addedKeys, addedParams, entriesOf]
            · intro _
              rfl
            · intro first rest h
              simp at h
        | cons first rest =>
          have hg : goIndex (first :: rest) 0 = .ok first := by simp [goIndex]
          simp only [List.length_cons, gt_iff_lt, Nat.zero_lt_succ, if_true, hg]
          cases henr : w.ENR first with
          | error e => simp
          | ok enr =>
            cases hs : w.StartClient beaconDef.Name
              ([p.beaconOpts] ++ [.params [
                ("HIVE_ETH2_ETH1_RPC_ADDRS", ",".intercalate addrs),
                ("HIVE_ETH2_ETH1_ENGINE_RPC_ADDRS", ",".intercalate engineAddrs)]] ++
                [.params [("HIVE_ETH2_BOOTNODE_ENRS", enr)]]) with
            | error e => simp_all
            | ok client =>
              intro _
              refine ⟨",".intercalate addrs, ",".intercalate engineAddrs,
                [.params [("HIVE_ETH2_BOOTNODE_ENRS", enr)]], ?_, ?_, ?_, ?_⟩
              · simp_all [startCalls_append, startCalls]
              · simp [addedKeys, addedParams, entriesOf]
              · intro h
                simp at h
              · intro first' rest' h
                simp only [List.cons.injEq] at h
                obtain ⟨rfl, _⟩ := h
                exact ⟨enr, henr, rfl⟩
  · intro w' testnet' beaconDef' eth1Endpoints' first rest err hb henr
    simp only [startBeaconNode]
    cases hchk : checkEndpoints testnet'.eth1.length eth1Endpoints' with
    | some f => simp [startCalls]
    | none =>
      have htr := resolveEndpoints_startCalls w' testnet'.eth1 eth1Endpoints' [] []
        [.logf "Starting beacon node: %s (%s)" [.str beaconDef'.Name, .str beaconDef'.Version]]
      rcases hres : resolveEndpoints w' testnet'.eth1 eth1Endpoints' [] []
        [.logf "Starting beacon node: %s (%s)" [.str beaconDef'.Name, .str beaconDef'.Version]]
        with ⟨tr', r⟩
      rw [hres] at htr
      simp only [startCalls] at htr
      have hg : goIndex (first :: rest) 0 = .ok first := by simp [goIndex]
      cases r with
      | error f => simp [htr]
      | ok pr =>
        obtain ⟨addrs, engineAddrs⟩ := pr
        simp [hb, hg, henr, startCalls_append, htr, startCalls]

/-- C7, at the sample testnet (one beacon node) with the endpoints `[0]`. -/
theorem startBeaconNode_bootnode_witness :
    (startBeaconNode sampleP sampleW sampleT ⟨"lighthouse-bn", "v1"⟩ [0]).err = none ∧
    ∃ rpcAddrs engineRPCAddrs boot,
      startCalls (startBeaconNode sampleP sampleW sampleT ⟨"lighthouse-bn", "v1"⟩ [0]).trace =
        [("lighthouse-bn", sampleP.beaconOpts ::
          .params [
            ("HIVE_ETH2_ETH1_RPC_ADDRS", rpcAddrs),
            ("HIVE_ETH2_ETH1_ENGINE_RPC_ADDRS", engineRPCAddrs)] :: boot)] ∧
      boot = [.params [("HIVE_ETH2_BOOTNODE_ENRS", "enr:10.0.1.1")]] :=
  ⟨by decide,
   (startBeaconNode_bootnode sampleP sampleW sampleT ⟨"lighthouse-bn", "v1"⟩ [0]
      (by decide)).1.imp
    (fun _ h => h.imp (fun _ h => h.imp (fun _ h =>
      ⟨h.1, (h.2.2.2 (sampleBeacon "10.0.1.1") [] rfl).elim
        (fun _ he => he.2.trans (by
          have := he.1
          simp only [sampleW, sampleBeacon, NetIP.String] at this
          cases this
          rfl))⟩)))⟩

/-! ## Genesis preparation -/

/-- What a successful `prepareTestnet` returns: the execution genesis built from the
parameters and the clock, the mainnet spec with the nine overwritten fields, and the
beacon state built for the genesis time 30 seconds later. -/
theorem prepareTestnet_ok (s : Setup) (env : testEnv) (config : config)
    (p : PreparedTestnet) (h : prepareTestnet s env config = .ok p) :
    p.eth1Genesis = s.BuildEth1Genesis config.TerminalTotalDifficulty (toUint64 s.now)
      (decide (config.Eth1Consensus = Clique)) ∧
    p.spec = { s.Mainnet with
      Config := { s.Mainnet.Config with
        DEPOSIT_CONTRACT_ADDRESS := depositAddress
        DEPOSIT_CHAIN_ID := bigUint64 p.eth1Genesis.Genesis.Config.ChainID
        DEPOSIT_NETWORK_ID := p.eth1Genesis.NetworkID
        ETH1_FOLLOW_DISTANCE := 1
        ALTAIR_FORK_EPOCH := config.AltairForkEpoch
        BELLATRIX_FORK_EPOCH := config.MergeForkEpoch
        MIN_GENESIS_ACTIVE_VALIDATOR_COUNT := config.ValidatorCount
        SECONDS_PER_SLOT := config.SlotTime
        TERMINAL_TOTAL_DIFFICULTY := (uint256FromBig config.TerminalTotalDifficulty).1 } } ∧
    s.BuildBeaconState p.spec p.eth1Genesis.Genesis ((toUint64 s.now + 30) % 2 ^ 64) env.Keys =
      .ok p.eth2Genesis := by
  simp only [prepareTestnet] at h
  split at h
  · cases h
  · split at h
    · cases h
    · split at h
      · cases h
      · split at h
        · cases h
        · rename_i hstate _ _ _
          simp only [Except.ok.injEq] at h
          subst h
          exact ⟨rfl, rfl, hstate⟩

/-- The function `prepareTestnet` returns a prepared testnet whenever the four fallible
collaborators succeed on the arguments it passes them. -/
theorem prepareTestnet_succeeds (s : Setup) (env : testEnv) (config : config)
    (h1 : ∀ g, ∃ o, s.Eth1Bundle g = .ok o)
    (h2 : ∀ sp g n, ∃ o, s.ConsensusConfigsBundle sp g n = .ok o)
    (h3 : ∀ sp g time keys, ∃ st, s.BuildBeaconState sp g time keys = .ok st)
    (h4 : ∀ st, ∃ o, s.StateBundle st = .ok o) :
    ∃ p, prepareTestnet s env config = .ok p := by
  simp only [prepareTestnet]
  obtain ⟨o1, ho1⟩ := h1 (s.BuildEth1Genesis config.TerminalTotalDifficulty (toUint64 s.now)
    (decide (config.Eth1Consensus = Clique))).Genesis
  rw [ho1]
  simp only []
  obtain ⟨o2, ho2⟩ := h2 _ (s.BuildEth1Genesis config.TerminalTotalDifficulty (toUint64 s.now)
    (decide (config.Eth1Consensus = Clique))).Genesis config.ValidatorCount
  rw [ho2]
  simp only []
  obtain ⟨st, hst⟩ := h3 _ (s.BuildEth1Genesis config.TerminalTotalDifficulty (toUint64 s.now)
    (decide (config.Eth1Consensus = Clique))).Genesis ((toUint64 s.now + 30) % 2 ^ 64) env.Keys
  rw [hst]
  simp only []
  obtain ⟨o4, ho4⟩ := h4 st
  rw [ho4]
  exact ⟨_, rfl⟩

/-- C4 (as amended): in the spec of a prepared testnet, `TERMINAL_TOTAL_DIFFICULTY` is
`config.TerminalTotalDifficulty`, the value the execution genesis was built with,
reduced modulo `2^256`, hence equal to it when it lies in `[0, 2^256)`;
`DEPOSIT_CHAIN_ID` is the low 64 bits of the absolute value of the execution genesis'
chain id, hence equal to it when it lies in `[0, 2^64)`; `DEPOSIT_NETWORK_ID` equals
the execution genesis' network id. -/
theorem prepareTestnet_spec_agrees (s : Setup) (env : testEnv) (config : config)
    (p : PreparedTestnet) (h : prepareTestnet s env config = .ok p) :
    p.eth1Genesis = s.BuildEth1Genesis config.TerminalTotalDifficulty (toUint64 s.now)
      (decide (config.Eth1Consensus = Clique)) ∧
    (p.spec.Config.TERMINAL_TOTAL_DIFFICULTY : Int) =
      config.TerminalTotalDifficulty % 2 ^ 256 ∧
    (0 ≤ config.TerminalTotalDifficulty → config.TerminalTotalDifficulty < 2 ^ 256 →
      (p.spec.Config.TERMINAL_TOTAL_DIFFICULTY : Int) = config.TerminalTotalDifficulty) ∧
    p.spec.Config.DEPOSIT_CHAIN_ID = p.eth1Genesis.Genesis.Config.ChainID.natAbs % 2 ^ 64 ∧
    (0 ≤ p.eth1Genesis.Genesis.Config.ChainID →
      p.eth1Genesis.Genesis.Config.ChainID < 2 ^ 64 →
      (p.spec.Config.DEPOSIT_CHAIN_ID : Int) = p.eth1Genesis.Genesis.Config.ChainID) ∧
    p.spec.Config.DEPOSIT_NETWORK_ID = p.eth1Genesis.NetworkID := by
  obtain ⟨hg, hspec, _⟩ := prepareTestnet_ok s env config p h
  have httd : (p.spec.Config.TERMINAL_TOTAL_DIFFICULTY : Int) =
      config.TerminalTotalDifficulty % 2 ^ 256 := by
    rw [hspec]
    simp only [uint256FromBig]
    exact Int.toNat_of_nonneg (Int.emod_nonneg _ (by norm_num))
  have hcid : p.spec.Config.DEPOSIT_CHAIN_ID =
      p.eth1Genesis.Genesis.Config.ChainID.natAbs % 2 ^ 64 := by
    rw [hspec]
    rfl
  refine ⟨hg, httd, ?_, hcid, ?_, ?_⟩
  · intro h0 h1
    rw [httd]
    exact Int.emod_eq_of_lt h0 h1
  · intro h0 h1
    rw [hcid]
    have hlt : p.eth1Genesis.Genesis.Config.ChainID.natAbs < 2 ^ 64 := by
      have : (p.eth1Genesis.Genesis.Config.ChainID.natAbs : Int) < 2 ^ 64 := by
        rw [Int.natAbs_of_nonneg h0]
        exact h1
      exact_mod_cast this
    rw [Nat.mod_eq_of_lt hlt]
    exact Int.natAbs_of_nonneg h0
  · rw [hspec]

/-- C4 (as amended), at the sample parameters (terminal total difficulty 150). -/
theorem prepareTestnet_spec_agrees_witness :
    prepareTestnet sampleS sampleEnv sampleConfig = .ok samplePrepared ∧
    (0 ≤ sampleConfig.TerminalTotalDifficulty ∧
      sampleConfig.TerminalTotalDifficulty < 2 ^ 256) ∧
    (samplePrepared.spec.Config.TERMINAL_TOTAL_DIFFICULTY : Int) =
      sampleConfig.TerminalTotalDifficulty ∧
    samplePrepared.spec.Config.DEPOSIT_NETWORK_ID = samplePrepared.eth1Genesis.NetworkID :=
  ⟨rfl, by norm_num [sampleConfig],
   (prepareTestnet_spec_agrees sampleS sampleEnv sampleConfig samplePrepared rfl).2.2.1
     (by norm_num [sampleConfig]) (by norm_num [sampleConfig]),
   (prepareTestnet_spec_agrees sampleS sampleEnv sampleConfig samplePrepared rfl).2.2.2.2.2⟩

/-- C4, as stated, fails: with a terminal total difficulty of `2^256`, passed as such
to the execution genesis builder, `prepareTestnet` succeeds and the spec holds
`TERMINAL_TOTAL_DIFFICULTY = 0`. -/
theorem prepareTestnet_ttd_truncated :
    ∃ p, prepareTestnet sampleS sampleEnv hugeConfig = .ok p ∧
      p.eth1Genesis = sampleS.BuildEth1Genesis (2 ^ 256) (toUint64 sampleS.now)
        (decide (hugeConfig.Eth1Consensus = Clique)) ∧
      hugeConfig.TerminalTotalDifficulty = 2 ^ 256 ∧
      p.spec.Config.TERMINAL_TOTAL_DIFFICULTY = 0 ∧
      (p.spec.Config.TERMINAL_TOTAL_DIFFICULTY : Int) ≠ hugeConfig.TerminalTotalDifficulty :=
  ⟨_, rfl, rfl, rfl, by simp [uint256FromBig, hugeConfig],
    by simp [uint256FromBig, hugeConfig]⟩

/-- C5: a prepared testnet holds the execution genesis built for the timestamp
`uint64(now)` and the beacon state built for the genesis time `uint64(now) + 30` in
`uint64` arithmetic.  For a clock reading in `[0, 2^63)` these are `now` and `now + 30`.
Absent wrap-around the genesis time is the timestamp plus 30 as integers and strictly
greater.  When the execution genesis builder stores the timestamp it is given and the
beacon state builder the genesis time it is given, the genesis time of the beacon
state (and of a testnet created from it) is the timestamp of the execution genesis
plus 30 in `uint64` arithmetic, and as integers, strictly greater, absent
wrap-around. -/
theorem prepareTestnet_genesis_times (s : Setup) (env : testEnv) (config : config)
    (p : PreparedTestnet) (h : prepareTestnet s env config = .ok p) :
    p.eth1Genesis = s.BuildEth1Genesis config.TerminalTotalDifficulty (toUint64 s.now)
      (decide (config.Eth1Consensus = Clique)) ∧
    s.BuildBeaconState p.spec p.eth1Genesis.Genesis ((toUint64 s.now + 30) % 2 ^ 64) env.Keys =
      .ok p.eth2Genesis ∧
    (0 ≤ s.now → s.now < 2 ^ 63 →
      (toUint64 s.now : Int) = s.now ∧
      (((toUint64 s.now + 30) % 2 ^ 64 : Nat) : Int) = s.now + 30) ∧
    (toUint64 s.now + 30 < 2 ^ 64 →
      (toUint64 s.now + 30) % 2 ^ 64 = toUint64 s.now + 30 ∧
      toUint64 s.now < (toUint64 s.now + 30) % 2 ^ 64) ∧
    ((∀ ttd ts clique, (s.BuildEth1Genesis ttd ts clique).Genesis.Timestamp = ts) →
      (∀ sp g time keys st, s.BuildBeaconState sp g time keys = .ok st →
        st.GenesisTime = time) →
      p.eth2Genesis.GenesisTime = (p.eth1Genesis.Genesis.Timestamp + 30) % 2 ^ 64 ∧
      (createTestnet p).genesisTime = (p.eth1Genesis.Genesis.Timestamp + 30) % 2 ^ 64 ∧
      (p.eth1Genesis.Genesis.Timestamp + 30 < 2 ^ 64 →
        p.eth2Genesis.GenesisTime = p.eth1Genesis.Genesis.Timestamp + 30 ∧
        p.eth1Genesis.Genesis.Timestamp < p.eth2Genesis.GenesisTime)) := by
  obtain ⟨hg, _, hstate⟩ := prepareTestnet_ok s env config p h
  refine ⟨hg, hstate, ?_, ?_, ?_⟩
  · intro h0 h1
    have hu : (toUint64 s.now : Int) = s.now := by
      simp only [toUint64]
      rw [Int.toNat_of_nonneg (Int.emod_nonneg _ (by norm_num))]
      exact Int.emod_eq_of_lt h0 (by omega)
    have hlt : toUint64 s.now + 30 < 2 ^ 64 := by omega
    rw [Nat.mod_eq_of_lt hlt]
    exact ⟨hu, by omega⟩
  · intro hlt
    rw [Nat.mod_eq_of_lt hlt]
    exact ⟨rfl, by omega⟩
  · intro hE hB
    have ht : p.eth1Genesis.Genesis.Timestamp = toUint64 s.now := by
      rw [hg]
      exact hE _ _ _
    have hb : p.eth2Genesis.GenesisTime = (toUint64 s.now + 30) % 2 ^ 64 :=
      hB _ _ _ _ _ hstate
    refine ⟨by rw [hb, ht], by simp only [createTestnet]; rw [hb, ht], ?_⟩
    intro hlt
    rw [hb, ht] at *
    rw [Nat.mod_eq_of_lt hlt]
    exact ⟨rfl, by omega⟩

/-- C5, at the sample parameters and the clock reading 1700000000, with builders that
store the times they are given. -/
theorem prepareTestnet_genesis_times_witness :
    prepareTestnet sampleS sampleEnv sampleConfig = .ok samplePrepared ∧
    ((0 : Int) ≤ sampleS.now ∧ sampleS.now < 2 ^ 63) ∧
    ((toUint64 sampleS.now : Int) = sampleS.now ∧
      (((toUint64 sampleS.now + 30) % 2 ^ 64 : Nat) : Int) = sampleS.now + 30) ∧
    ((∀ ttd ts clique, (sampleS.BuildEth1Genesis ttd ts clique).Genesis.Timestamp = ts) ∧
      (∀ sp g time keys st, sampleS.BuildBeaconState sp g time keys = .ok st →
        st.GenesisTime = time)) ∧
    samplePrepared.eth1Genesis.Genesis.Timestamp + 30 < 2 ^ 64 ∧
    (samplePrepared.eth2Genesis.GenesisTime =
        samplePrepared.eth1Genesis.Genesis.Timestamp + 30 ∧
      samplePrepared.eth1Genesis.Genesis.Timestamp < samplePrepared.eth2Genesis.GenesisTime) ∧
    samplePrepared.eth1Genesis.Genesis.Timestamp = 1700000000 ∧
    samplePrepared.eth2Genesis.GenesisTime = 1700000030 :=
  ⟨rfl, by decide,
   (prepareTestnet_genesis_times sampleS sampleEnv sampleConfig samplePrepared rfl).2.2.1
     (by decide) (by decide),
   ⟨fun _ _ _ => rfl, fun _ _ _ _ _ h => by cases h; rfl⟩,
   by decide,
   ((prepareTestnet_genesis_times sampleS sampleEnv sampleConfig samplePrepared rfl).2.2.2.2
     (fun _ _ _ => rfl) (fun _ _ _ _ _ h => by cases h; rfl)).2.2 (by decide),
   by decide, by decide⟩

end Hive
